import Mathlib

/-!
Verification of the audio-classifier setup script (`setup.py`).

The script is a single-pass provisioning pipeline over the filesystem: it
checks the Python version, creates project directories, copies trained
model artifacts from a configured training directory (`TRAINING_DIR`) into
the project model store (`MODELS_DIR`), derives a class-label list and
writes it to `models/classes.json`, verifies the copied models, writes
`requirements.txt` and `README.md`, and checks importable dependencies.

We embed the filesystem shallowly: a filesystem is an association list from
paths to nodes, a node is a directory or a file, and a file's content is
either text that parses as a JSON value or text that does not.  Paths are
stored reversed (head = basename), so the parent of `n :: p` is `p`.
Fallible operations (copies into missing directories, `json.load` on
malformed text, `in` / subscripting on unsuitable Python values, writes
into missing directories) return `Except PyErr`.  The configured training
root is modelled by the path `["training"]` and the project root by
`["project"]`; their concrete textual spellings in the script are
configuration, not logic.  A filesystem state is observed through `lookup`;
overwriting a path with the node it already holds leaves the state
unchanged, which matches `shutil.copy2` (content and metadata are copied
from the source, so re-copying an identical file is a no-op).
-/

set_option autoImplicit false

namespace AudioSetup

/-- A filesystem path, stored reversed: the head is the basename and the
tail is the parent path, so `["summary.json", "mfcc", "training"]` stands
for `training/mfcc/summary.json`. -/
abbrev Path := List String

/-- A JSON value, as produced by Python's `json.load`.  Numbers are
modelled as integers; no claim depends on non-integral numerics. -/
inductive Json where
  | null : Json
  | bool (b : Bool) : Json
  | num (n : Int) : Json
  | str (s : String) : Json
  | arr (elems : List Json) : Json
  | obj (fields : List (String × Json)) : Json

mutual

/-- Boolean equality test on JSON values (structural). -/
def Json.beq : Json → Json → Bool
  | .null, .null => true
  | .bool a, .bool b => a == b
  | .num a, .num b => a == b
  | .str a, .str b => a == b
  | .arr xs, .arr ys => Json.beqList xs ys
  | .obj xs, .obj ys => Json.beqFields xs ys
  | _, _ => false

/-- Boolean equality test on lists of JSON values. -/
def Json.beqList : List Json → List Json → Bool
  | [], [] => true
  | x :: xs, y :: ys => Json.beq x y && Json.beqList xs ys
  | _, _ => false

/-- Boolean equality test on JSON object field lists. -/
def Json.beqFields : List (String × Json) → List (String × Json) → Bool
  | [], [] => true
  | (k, v) :: xs, (l, w) :: ys => k == l && Json.beq v w && Json.beqFields xs ys
  | _, _ => false

end

mutual

/-- Soundness of `Json.beq`. -/
def Json.eq_of_beq : ∀ {a b : Json}, Json.beq a b = true → a = b
  | .null, .null, _ => rfl
  | .bool _, .bool _, h => by simpa [Json.beq] using h
  | .num _, .num _, h => by simpa [Json.beq] using h
  | .str _, .str _, h => by simpa [Json.beq] using h
  | .arr xs, .arr ys, h => by
      rw [Json.eqList_of_beq (a := xs) (b := ys) (by simpa [Json.beq] using h)]
  | .obj xs, .obj ys, h => by
      rw [Json.eqFields_of_beq (a := xs) (b := ys) (by simpa [Json.beq] using h)]

/-- Soundness of `Json.beqList`. -/
def Json.eqList_of_beq : ∀ {a b : List Json}, Json.beqList a b = true → a = b
  | [], [], _ => rfl
  | x :: xs, y :: ys, h => by
      have h' := h
      simp only [Json.beqList, Bool.and_eq_true] at h'
      rw [Json.eq_of_beq h'.1, Json.eqList_of_beq h'.2]
  | [], _ :: _, h => by simp [Json.beqList] at h
  | _ :: _, [], h => by simp [Json.beqList] at h

/-- Soundness of `Json.beqFields`. -/
def Json.eqFields_of_beq : ∀ {a b : List (String × Json)}, Json.beqFields a b = true → a = b
  | [], [], _ => rfl
  | (k, v) :: xs, (l, w) :: ys, h => by
      have h' := h
      simp only [Json.beqFields, Bool.and_eq_true] at h'
      obtain ⟨⟨h1, h2⟩, h3⟩ := h'
      rw [beq_iff_eq.mp h1, Json.eq_of_beq h2, Json.eqFields_of_beq h3]
  | [], _ :: _, h => by simp [Json.beqFields] at h
  | _ :: _, [], h => by simp [Json.beqFields] at h

end

mutual

/-- Reflexivity of `Json.beq`. -/
def Json.beq_self : ∀ a : Json, Json.beq a a = true
  | .null => rfl
  | .bool _ => by simp [Json.beq]
  | .num _ => by simp [Json.beq]
  | .str _ => by simp [Json.beq]
  | .arr xs => by simpa [Json.beq] using Json.beqList_self xs
  | .obj xs => by simpa [Json.beq] using Json.beqFields_self xs

/-- Reflexivity of `Json.beqList`. -/
def Json.beqList_self : ∀ a : List Json, Json.beqList a a = true
  | [] => rfl
  | x :: xs => by
      simp only [Json.beqList, Bool.and_eq_true]
      exact ⟨Json.beq_self x, Json.beqList_self xs⟩

/-- Reflexivity of `Json.beqFields`. -/
def Json.beqFields_self : ∀ a : List (String × Json), Json.beqFields a a = true
  | [] => rfl
  | (k, v) :: xs => by
      simp only [Json.beqFields, Bool.and_eq_true]
      exact ⟨⟨by simp, Json.beq_self v⟩, Json.beqFields_self xs⟩

end

instance : DecidableEq Json := fun a b =>
  if h : Json.beq a b = true then .isTrue (Json.eq_of_beq h)
  else .isFalse (fun he => h (he ▸ Json.beq_self a))

instance {ε α : Type} [DecidableEq ε] [DecidableEq α] : DecidableEq (Except ε α) := fun a b =>
  match a, b with
  | .ok x, .ok y => if h : x = y then .isTrue (by rw [h]) else .isFalse (by simp [h])
  | .error x, .error y => if h : x = y then .isTrue (by rw [h]) else .isFalse (by simp [h])
  | .ok _, .error _ => .isFalse (by simp)
  | .error _, .ok _ => .isFalse (by simp)

/-- Content of a file: text that parses as a JSON value, or text that does
not parse as JSON (model weights, CSV metrics, arbitrary bytes). -/
inductive FileContent where
  | jsonData (j : Json) : FileContent
  | rawData (text : String) : FileContent
  deriving DecidableEq

/-- A filesystem node: a directory or a file with content. -/
inductive Node where
  | dir : Node
  | file (content : FileContent) : Node
  deriving DecidableEq

/-- Python exceptions the modelled operations can raise. -/
inductive PyErr where
  | fileNotFound : PyErr
  | fileExists : PyErr
  | isADirectory : PyErr
  | notADirectory : PyErr
  | jsonDecodeError : PyErr
  | typeError : PyErr
  | keyError : PyErr
  deriving DecidableEq

/-- A filesystem state: the finite set of existing nodes, keyed by path.
Lookups take the first entry with a matching key. -/
structure FS where
  nodes : List (Path × Node)
  deriving DecidableEq

/-- Node stored at a path, if any. -/
def FS.lookup (fs : FS) (p : Path) : Option Node :=
  (fs.nodes.find? (fun e => e.1 == p)).map (fun e => e.2)

/-- `Path.exists()`: does anything (file or directory) exist at `p`? -/
def FS.existsPath (fs : FS) (p : Path) : Bool :=
  (fs.lookup p).isSome

/-- Is there a directory at `p`? -/
def FS.isDir (fs : FS) (p : Path) : Bool :=
  match fs.lookup p with
  | some .dir => true
  | _ => false

/-- Names of the immediate children of `p`, in filesystem (list) order. -/
def FS.childNames (fs : FS) (p : Path) : List String :=
  fs.nodes.filterMap (fun e =>
    match e.1 with
    | [] => none
    | name :: q => if q == p then some name else none)

/-- Store node `n` at path `p`, replacing whatever was there.  Storing the
node already present is a no-op (states are observed through `lookup`). -/
def FS.setNode (fs : FS) (p : Path) (n : Node) : FS :=
  if fs.lookup p = some n then fs
  else ⟨(p, n) :: fs.nodes.filter (fun e => !(e.1 == p))⟩

/-- All of `p` and its ancestors exist as directories. -/
def FS.allDirs (fs : FS) : Path → Bool
  | [] => true
  | name :: parent => fs.isDir (name :: parent) && fs.allDirs parent

/-- `shutil.copy2(src, dst)`: read the file at `src` and write its content
to `dst`.  Raises if `src` is missing or a directory, if `dst`'s parent is
not a directory, or if `dst` is a directory. -/
def FS.copy2 (fs : FS) (src dst : Path) : Except PyErr FS :=
  match fs.lookup src with
  | some (.file c) =>
    match dst with
    | [] => .error .isADirectory
    | _ :: parent =>
      if fs.isDir parent then
        match fs.lookup dst with
        | some .dir => .error .isADirectory
        | _ => .ok (fs.setNode dst (.file c))
      else .error .fileNotFound
  | some .dir => .error .isADirectory
  | none => .error .fileNotFound

/-- `Path.mkdir(parents=True, exist_ok=True)`: create `p` and any missing
ancestors as directories; an existing directory is fine, an existing file
anywhere on the chain raises `FileExistsError`. -/
def FS.mkdirParents (fs : FS) : Path → Except PyErr FS
  | [] => .ok fs
  | name :: parent =>
    match fs.mkdirParents parent with
    | .error e => .error e
    | .ok fs1 =>
      match fs1.lookup (name :: parent) with
      | some .dir => .ok fs1
      | some (.file _) => .error .fileExists
      | none => .ok (fs1.setNode (name :: parent) .dir)

/-- `Path.mkdir(exist_ok=True)` (no `parents`): create `p` if missing; an
existing directory is fine, an existing file raises, a missing parent
raises. -/
def FS.mkdirExistOk (fs : FS) (p : Path) : Except PyErr FS :=
  match fs.lookup p with
  | some .dir => .ok fs
  | some (.file _) => .error .fileExists
  | none =>
    match p with
    | [] => .ok fs
    | _ :: parent =>
      if fs.isDir parent then .ok (fs.setNode p .dir) else .error .fileNotFound

/-- `open(p, "w")` followed by writing `c`: creates or truncates the file.
Raises if the parent is not a directory or if `p` is a directory. -/
def FS.writeFile (fs : FS) (p : Path) (c : FileContent) : Except PyErr FS :=
  match p with
  | [] => .error .isADirectory
  | _ :: parent =>
    if fs.isDir parent then
      match fs.lookup p with
      | some .dir => .error .isADirectory
      | _ => .ok (fs.setNode p (.file c))
    else .error .fileNotFound

/-- `open(p, "r")` followed by reading: returns the file's content.
Raises if `p` is missing or a directory. -/
def FS.readFile (fs : FS) (p : Path) : Except PyErr FileContent :=
  match fs.lookup p with
  | some (.file c) => .ok c
  | some .dir => .error .isADirectory
  | none => .error .fileNotFound

/-- Does string `s` end with string `t`?  (Comparison on the reversed
character lists.) -/
def endsWithB (s t : String) : Bool :=
  (s.data.reverse.take t.data.length) == t.data.reverse

/-- `Path.glob("*.h5")`: names of the immediate children of `p` whose name
ends in `.h5`, in filesystem order.  `pathlib` matches any directory entry
(files and subdirectories alike) against the pattern. -/
def FS.globH5 (fs : FS) (p : Path) : List String :=
  (fs.childNames p).filter (fun name => endsWithB name ".h5")

/-- The configured training root (`TRAINING_DIR` in the script). -/
def TRAINING_DIR : Path := ["training"]

/-- The project root (`PROJECT_DIR` in the script). -/
def PROJECT_DIR : Path := ["project"]

/-- `MODELS_DIR = PROJECT_DIR / "models"`. -/
def MODELS_DIR : Path := "models" :: PROJECT_DIR

/-- `TEMPLATES_DIR = PROJECT_DIR / "templates"`. -/
def TEMPLATES_DIR : Path := "templates" :: PROJECT_DIR

/-- `FEATURE_TYPES = ['mfcc', 'mel', 'concat']`. -/
def FEATURE_TYPES : List String := ["mfcc", "mel", "concat"]

/-- `check_python_version`: true iff major == 3 and minor >= 8. -/
def check_python_version (major minor : Nat) : Bool :=
  major == 3 && decide (8 ≤ minor)

/-- The directories created by `create_project_structure`. -/
def PROJECT_SUBDIRS : List Path :=
  [ MODELS_DIR, TEMPLATES_DIR,
   "uploads" :: PROJECT_DIR, "results" :: PROJECT_DIR, "static" :: PROJECT_DIR]

/-- Create each directory in turn with `mkdir(exist_ok=True)`. -/
def mkdirsExistOk (fs : FS) : List Path → Except PyErr FS
  | [] => .ok fs
  | d :: rest =>
    match fs.mkdirExistOk d with
    | .error e => .error e
    | .ok fs1 => mkdirsExistOk fs1 rest

/-- `create_project_structure`: ensure the five project directories exist. -/
def create_project_structure (fs : FS) : Except PyErr FS :=
  mkdirsExistOk fs PROJECT_SUBDIRS

/-- The `for model_file in source_models.glob("*.h5")` loop body of
`copy_models`: copy each named entry and bump the counter. -/
def copyModelFiles (srcModels dstModels : Path) : FS → Nat → List String → Except PyErr (FS × Nat)
  | fs, count, [] => .ok (fs, count)
  | fs, count, name :: rest =>
    match fs.copy2 (name :: srcModels) (name :: dstModels) with
    | .error e => .error e
    | .ok fs1 => copyModelFiles srcModels dstModels fs1 (count + 1) rest

/-- The `models`-subdirectory block of one `copy_models` loop iteration:
if `SourceRoot/feature/models` exists, create the destination subtree and
copy every `*.h5` entry, counting each copy. -/
def copyModelsPhase (fs : FS) (count : Nat) (feature : String) : Except PyErr (FS × Nat) :=
  if fs.existsPath ("models" :: feature :: TRAINING_DIR) then
    match fs.mkdirParents ("models" :: feature :: MODELS_DIR) with
    | .error e => .error e
    | .ok fs1 =>
      copyModelFiles ("models" :: feature :: TRAINING_DIR)
        ("models" :: feature :: MODELS_DIR) fs1 count
        (fs1.globH5 ("models" :: feature :: TRAINING_DIR))
  else .ok (fs, count)

/-- The `summary.json` block of one `copy_models` loop iteration. -/
def copySummary (fs : FS) (feature : String) : Except PyErr FS :=
  if fs.existsPath ("summary.json" :: feature :: TRAINING_DIR) then
    fs.copy2 ("summary.json" :: feature :: TRAINING_DIR)
      ("summary.json" :: feature :: MODELS_DIR)
  else .ok fs

/-- The `fold_metrics.csv` block of one `copy_models` loop iteration. -/
def copyMetrics (fs : FS) (feature : String) : Except PyErr FS :=
  if fs.existsPath ("fold_metrics.csv" :: feature :: TRAINING_DIR) then
    fs.copy2 ("fold_metrics.csv" :: feature :: TRAINING_DIR)
      ("fold_metrics.csv" :: feature :: MODELS_DIR)
  else .ok fs

/-- One iteration of the `for feature in FEATURE_TYPES` loop of
`copy_models`: skip a missing source category; otherwise copy the `models`
subdirectory, then `summary.json`, then `fold_metrics.csv`, each only if
present at the source. -/
def copyFeature (fs : FS) (count : Nat) (feature : String) : Except PyErr (FS × Nat) :=
  if fs.existsPath (feature :: TRAINING_DIR) then
    match copyModelsPhase fs count feature with
    | .error e => .error e
    | .ok (fs1, count1) =>
      match copySummary fs1 feature with
      | .error e => .error e
      | .ok fs2 =>
        match copyMetrics fs2 feature with
        | .error e => .error e
        | .ok fs3 => .ok (fs3, count1)
  else .ok (fs, count)

/-- The `for feature in FEATURE_TYPES` loop of `copy_models`. -/
def copyFeatures : List String → FS → Nat → Except PyErr (FS × Nat)
  | [], fs, count => .ok (fs, count)
  | f :: rest, fs, count =>
    match copyFeature fs count f with
    | .error e => .error e
    | .ok (fs1, count1) => copyFeatures rest fs1 count1

/-- `copy_models`: if the training root is missing, report failure without
touching anything; otherwise process every feature category and return the
final state, the number of model files copied, and `copied_count > 0`. -/
def copy_models (fs : FS) : Except PyErr (FS × Nat × Bool) :=
  if fs.existsPath TRAINING_DIR then
    match copyFeatures FEATURE_TYPES fs 0 with
    | .error e => .error e
    | .ok (fs1, count) => .ok (fs1, count, decide (0 < count))
  else .ok (fs, 0, false)

/-- Code-point comparison of character lists, as Python compares strings. -/
def charListLe : List Char → List Char → Bool
  | [], _ => true
  | _ :: _, [] => false
  | a :: as, b :: bs =>
    if a.val < b.val then true
    else if b.val < a.val then false
    else charListLe as bs

/-- Python `<=` on strings (lexicographic by code point). -/
def strLeB (s t : String) : Bool := charListLe s.data t.data

/-- Insert a string into a sorted list (ascending). -/
def insertStr (s : String) : List String → List String
  | [] => [s]
  | t :: rest => if strLeB s t then s :: t :: rest else t :: insertStr s rest

/-- Python `sorted` on a list of strings (insertion sort, ascending). -/
def sortStrings (l : List String) : List String := l.foldr insertStr []

/-- Python truthiness of a JSON value (`if classes:`). -/
def Json.truthy : Json → Bool
  | .null => false
  | .bool b => b
  | .num n => n != 0
  | .str s => s != ""
  | .arr xs => !xs.isEmpty
  | .obj fields => !fields.isEmpty

/-- Is `needle` a substring of `hay`?  (Python `key in someString`.) -/
def substrB (needle hay : String) : Bool :=
  (List.range (hay.data.length + 1)).any
    (fun i => (hay.data.drop i).take needle.data.length == needle.data)

/-- Python `==` between a JSON value and a string: true only for an equal
string (cross-type comparison is false, never an error). -/
def jsonEqPyStr (j : Json) (s : String) : Bool :=
  match j with
  | .str t => t == s
  | _ => false

/-- Python `key in data` on a loaded JSON value: key membership for an
object, element membership for an array, substring test for a string; a
`TypeError` for null, booleans and numbers. -/
def pyContains (data : Json) (key : String) : Except PyErr Bool :=
  match data with
  | .obj fields => .ok (fields.any (fun kv => kv.1 == key))
  | .arr elems => .ok (elems.any (fun e => jsonEqPyStr e key))
  | .str s => .ok (substrB key s)
  | _ => .error .typeError

/-- Python `data[key]` on a loaded JSON value: field access for an object
(`KeyError` if absent), a `TypeError` otherwise (list and string indices
must be integers). -/
def pyGetItem (data : Json) (key : String) : Except PyErr Json :=
  match data with
  | .obj fields =>
    match fields.find? (fun kv => kv.1 == key) with
    | some kv => .ok kv.2
    | none => .error .keyError
  | _ => .error .typeError

/-- Python `len` on a loaded JSON value: the number of elements of a
list, keys of an object, or characters of a string; a `TypeError` for
null, booleans and numbers (`object has no len()`). -/
def pyLen : Json → Except PyErr Nat
  | .arr xs => .ok xs.length
  | .obj fields => .ok fields.length
  | .str s => .ok s.length
  | _ => .error .typeError

/-- Python `classes[:5]`: slicing a list or a string; a `TypeError` for
an object (`unhashable type: slice`) and for null, booleans and numbers
(not subscriptable). -/
def pySliceFive : Json → Except PyErr Json
  | .arr xs => .ok (.arr (xs.take 5))
  | .str s => .ok (.str (s.take 5))
  | _ => .error .typeError

/-- `json.load` on a file's content: the parsed value, or
`json.JSONDecodeError` for text that is not JSON. -/
def jsonLoad : FileContent → Except PyErr Json
  | .jsonData j => .ok j
  | .rawData _ => .error .jsonDecodeError

/-- One iteration of the metadata loop of `extract_classes_from_training`
for one feature category: `none` means "keep looking" (file absent, or no
`classes` key), `some v` means the loop breaks with `classes = v`. -/
def tier2Step (fs : FS) (feature : String) : Except PyErr (Option Json) :=
  if fs.existsPath ("summary.json" :: feature :: TRAINING_DIR) then
    match fs.readFile ("summary.json" :: feature :: TRAINING_DIR) with
    | .error e => .error e
    | .ok content =>
      match jsonLoad content with
      | .error e => .error e
      | .ok data =>
        match pyContains data "classes" with
        | .error e => .error e
        | .ok true =>
          match pyGetItem data "classes" with
          | .error e => .error e
          | .ok v => .ok (some v)
        | .ok false => .ok none
  else .ok none

/-- The metadata loop of `extract_classes_from_training`: first category
whose `summary.json` exists, parses and has a `classes` key wins; if none
does, `classes` keeps its initial value `[]`. -/
def findClassesMeta (fs : FS) : List String → Except PyErr Json
  | [] => .ok (.arr [])
  | f :: rest =>
    match tier2Step fs f with
    | .error e => .error e
    | .ok (some v) => .ok v
    | .ok none => findClassesMeta fs rest

/-- `extract_classes_from_training`: if `TRAINING_DIR/test_web` exists,
list its immediate subdirectories, sorted (iterating a non-directory
raises `NotADirectoryError`); otherwise fall back to the per-category
metadata loop, and when its result is truthy print its `len` — which
raises `TypeError` for a truthy number or boolean.  (On the `test_web`
path the printed `len(classes)` is applied to a list and cannot raise,
so it is not modelled.) -/
def extract_classes_from_training (fs : FS) : Except PyErr Json :=
  if fs.existsPath ("test_web" :: TRAINING_DIR) then
    if fs.isDir ("test_web" :: TRAINING_DIR) then
      .ok (.arr ((sortStrings ((fs.childNames ("test_web" :: TRAINING_DIR)).filter
        (fun n => fs.isDir (n :: "test_web" :: TRAINING_DIR)))).map .str))
    else .error .notADirectory
  else
    match findClassesMeta fs FEATURE_TYPES with
    | .error e => .error e
    | .ok classes =>
      if classes.truthy then
        match pyLen classes with
        | .error e => .error e
        | .ok _ => .ok classes
      else .ok classes

/-- The hardcoded fallback label list. -/
def placeholderClasses : Json :=
  .arr [.str "clase_ejemplo_1", .str "clase_ejemplo_2", .str "clase_ejemplo_3"]

/-- `MODELS_DIR / "classes.json"`. -/
def classesFilePath : Path := "classes.json" :: MODELS_DIR

/-- Outcome of `create_classes_file`: the filesystem after the write, the
label list written, whether the manual-edit warning was emitted, and the
return value. -/
structure ClassesOutcome where
  fs : FS
  written : Json
  warned : Bool
  result : Bool
  deriving DecidableEq

/-- `create_classes_file`: extract the classes, fall back to the
placeholder (with a warning) if the extraction is falsy, write the result
to `models/classes.json`, print `len(classes)` and the first five entries
`classes[:5]` — each of which can raise `TypeError` for a non-sized or
non-sliceable value — and return `True`. -/
def create_classes_file (fs : FS) : Except PyErr ClassesOutcome :=
  match extract_classes_from_training fs with
  | .error e => .error e
  | .ok classes0 =>
    let pair := if classes0.truthy then (classes0, false) else (placeholderClasses, true)
    match fs.writeFile classesFilePath (.jsonData pair.1) with
    | .error e => .error e
    | .ok fs1 =>
      match pyLen pair.1 with
      | .error e => .error e
      | .ok _ =>
        match pySliceFive pair.1 with
        | .error e => .error e
        | .ok _ => .ok ⟨fs1, pair.1, pair.2, true⟩

/-- The `for feature in FEATURE_TYPES` loop of `verify_models`, carrying
the `all_valid` flag: a missing `models` directory or fewer than 5 model
files clears the flag, and the loop always continues. -/
def verifyFeatures (fs : FS) : Bool → List String → Bool
  | allValid, [] => allValid
  | allValid, f :: rest =>
    if fs.existsPath ("models" :: f :: MODELS_DIR) then
      if 5 ≤ (fs.globH5 ("models" :: f :: MODELS_DIR)).length then
        verifyFeatures fs allValid rest
      else verifyFeatures fs false rest
    else verifyFeatures fs false rest

/-- `verify_models`: true iff every category has a `models` directory with
at least 5 `*.h5` entries (`expected_folds = 5`). -/
def verify_models (fs : FS) : Bool := verifyFeatures fs true FEATURE_TYPES

/-- The `required` package list of `check_dependencies`. -/
def REQUIRED_PACKAGES : List String := ["flask", "tensorflow", "librosa", "numpy", "pandas"]

/-- `check_dependencies`: true iff every required package is importable. -/
def check_dependencies (installed : List String) : Bool :=
  (REQUIRED_PACKAGES.filter (fun p => !(installed.contains p))).isEmpty

/-- Literal content of the generated `requirements.txt`. -/
def requirementsText : String :=
  "# Backend\nflask==3.0.0\nflask-cors==4.0.0\nwerkzeug==3.0.1\n\n# Audio processing\nlibrosa==0.10.1\nsoundfile==0.12.1\n\n# Deep Learning\ntensorflow==2.15.0\n\n# Data processing\nnumpy==1.24.3\npandas==2.1.4\n\n# Utils\npython-dateutil==2.8.2\n\n# Production server\ngunicorn==21.2.0\nwaitress==2.1.2\n"

/-- Literal content of the generated `README.md`. -/
def readmeText : String :=
  "# Clasificador de Audio CNN - K-Fold Ensemble\n\nSistema de clasificación de audio usando CNN con ensemble de 5 k-folds.\n\n## Inicio Rápido\n\n1. Instalar dependencias:\n```bash\npip install -r requirements.txt\n```\n\n2. Ejecutar servidor:\n```bash\npython app.py\n```\n\n3. Acceder a: http://localhost:8000\n\n## Estructura del Proyecto\n\n- `app.py` - Backend Flask\n- `models/` - Modelos entrenados (mfcc, mel, concat)\n- `templates/` - Frontend HTML\n- `uploads/` - Archivos temporales\n- `results/` - Historial de predicciones\n\n## API Endpoints\n\n- `GET /api/info` - Información del sistema\n- `POST /api/predict` - Clasificar un audio\n- `POST /api/predict/batch` - Clasificar múltiples audios\n- `GET /api/history` - Historial de predicciones\n\n## Producción\n\nVer archivo de configuración para deployment en cloud.\n"

/-- `create_requirements`: write `requirements.txt` and return `True`. -/
def create_requirements (fs : FS) : Except PyErr (FS × Bool) :=
  match fs.writeFile ("requirements.txt" :: PROJECT_DIR) (.rawData requirementsText) with
  | .error e => .error e
  | .ok fs1 => .ok (fs1, true)

/-- `create_readme`: write `README.md` and return `True`. -/
def create_readme (fs : FS) : Except PyErr (FS × Bool) :=
  match fs.writeFile ("README.md" :: PROJECT_DIR) (.rawData readmeText) with
  | .error e => .error e
  | .ok fs1 => .ok (fs1, true)

/-- The environment a run of the script sees: the interpreter version, the
filesystem, and the set of importable packages. -/
structure Env where
  pyMajor : Nat
  pyMinor : Nat
  fs : FS
  installed : List String
  deriving DecidableEq

/-- Steps 4–9 of `main` (everything after `copy_models`): create the
classes file, verify the models, write `requirements.txt` and `README.md`,
check the dependencies, print the summary.  The results of steps 5 and 8
are computed and ignored. -/
def main_rest (env : Env) (fs : FS) : Except PyErr (FS × Option Nat) :=
  match create_classes_file fs with
  | .error e => .error e
  | .ok r =>
    let _ := verify_models r.fs
    match create_requirements r.fs with
    | .error e => .error e
    | .ok (fs1, _) =>
      match create_readme fs1 with
      | .error e => .error e
      | .ok (fs2, _) =>
        let _ := check_dependencies env.installed
        .ok (fs2, none)

/-- `main`: abort with `sys.exit(1)` (modelled as `some 1`) if the version
check fails; otherwise run every step in order, threading the filesystem.
An uncaught exception surfaces as `.error`; normal completion is `none`. -/
def mainBody (env : Env) : Except PyErr (FS × Option Nat) :=
  if check_python_version env.pyMajor env.pyMinor then
    match create_project_structure env.fs with
    | .error e => .error e
    | .ok fs1 =>
      match copy_models fs1 with
      | .error e => .error e
      | .ok (fs2, _, _) => main_rest env fs2
  else .ok (env.fs, some 1)

/-- The `if __name__ == "__main__"` guard: a `KeyboardInterrupt` during
`main` (abstracted as the `interrupted` flag) exits 0; a `SystemExit`
from the version check passes through both handlers and exits with its
code; any other exception is caught once and exits 1; normal completion
exits 0. -/
def runScript (env : Env) (interrupted : Bool) : Nat :=
  if interrupted then 0
  else
    match mainBody env with
    | .ok (_, some code) => code
    | .ok (_, none) => 0
    | .error _ => 1

/-- Does the path end in the training root? (All reads the Provisioner
bases decisions on are such paths.) -/
def inTraining (p : Path) : Bool := p.getLast? == some "training"

/-- Does the path end in the project root? (All writes the Provisioner
performs are at such paths.) -/
def inProject (p : Path) : Bool := p.getLast? == some "project"

/-- The entries of the training subtree, in order.  Everything the
Provisioner reads from the source is a function of this list. -/
def trainingEntries (fs : FS) : List (Path × Node) :=
  fs.nodes.filter (fun e => inTraining e.1)

/-- The destination paths feature `f`'s `models`-subdirectory block may
write or read below the model store: the category directory, its `models`
subdirectory, and the copied model files. -/
def touchesModels (f : String) (q : Path) : Prop :=
  q = f :: MODELS_DIR ∨ q = "models" :: f :: MODELS_DIR ∨
  ∃ n, q = n :: "models" :: f :: MODELS_DIR

/-- The destination paths feature `f`'s loop iteration may write or read
below the model store: those of the `models` block plus the two metadata
files. -/
def touchesF (f : String) (q : Path) : Prop :=
  touchesModels f q ∨
  q = "summary.json" :: f :: MODELS_DIR ∨ q = "fold_metrics.csv" :: f :: MODELS_DIR

/-- Is `q` a (possibly improper) suffix of `p` — i.e. an ancestor of `p`
or `p` itself, in reversed-path representation? -/
def sfx (q : Path) : Path → Bool
  | [] => q == ([] : Path)
  | name :: t => q == (name :: t) || sfx q t

/-- Example state: the `mfcc` category has `summary.json` (and no `models`
subdirectory) at the source, and the model store has no `mfcc` directory. -/
def fsC1 : FS := ⟨[(TRAINING_DIR, .dir), (["mfcc", "training"], .dir),
  (["summary.json", "mfcc", "training"],
    .file (.jsonData (.obj [("classes", .arr [.str "a", .str "b"])]))),
  (PROJECT_DIR, .dir), (MODELS_DIR, .dir)]⟩

/-- Example state: like `fsC1` but the destination category directory
`models/mfcc` already exists and `fold_metrics.csv` is present too. -/
def fsC1w : FS := ⟨[(TRAINING_DIR, .dir), (["mfcc", "training"], .dir),
  (["summary.json", "mfcc", "training"],
    .file (.jsonData (.obj [("classes", .arr [.str "a", .str "b"])]))),
  (["fold_metrics.csv", "mfcc", "training"], .file (.rawData "fold,acc")),
  (PROJECT_DIR, .dir), (MODELS_DIR, .dir), (["mfcc", "models", "project"], .dir)]⟩

/-- Example state: `mfcc`'s `summary.json` exists but holds text that is
not valid JSON, and there is no `test_web` directory. -/
def fsC2 : FS := ⟨[(TRAINING_DIR, .dir), (["mfcc", "training"], .dir),
  (["summary.json", "mfcc", "training"], .file (.rawData "not json")),
  (PROJECT_DIR, .dir), (MODELS_DIR, .dir)]⟩

/-- Example state: no training root at all, model store present. -/
def fsC2w : FS := ⟨[(PROJECT_DIR, .dir), (MODELS_DIR, .dir)]⟩

/-- The outcome `create_classes_file` computes on `fsC2w`. -/
def outC2w : ClassesOutcome :=
  match create_classes_file fsC2w with
  | .ok r => r
  | .error _ => ⟨⟨[]⟩, .null, false, false⟩

/-- Example environment: compatible interpreter, project root present and
empty, missing training root. -/
def envC3 : Env := ⟨3, 10, ⟨[(PROJECT_DIR, .dir)]⟩, []⟩

/-- The filesystem `create_project_structure` produces from `envC3`. -/
def fsC3s : FS :=
  match create_project_structure envC3.fs with
  | .ok fs => fs
  | .error _ => ⟨[]⟩

/-- Example state: `test_web` has subdirectories `b` and `a` plus a plain
file, and `mfcc` metadata names a different class list. -/
def fsC4 : FS := ⟨[(TRAINING_DIR, .dir), (["test_web", "training"], .dir),
  (["b", "test_web", "training"], .dir), (["a", "test_web", "training"], .dir),
  (["notes.txt", "test_web", "training"], .file (.rawData "x")),
  (["mfcc", "training"], .dir),
  (["summary.json", "mfcc", "training"],
    .file (.jsonData (.obj [("classes", .arr [.str "z"])]))),
  (PROJECT_DIR, .dir), (MODELS_DIR, .dir)]⟩

/-- Example state: no `test_web`, and `mfcc`'s `summary.json` has a
`classes` field holding the empty list. -/
def fsC5 : FS := ⟨[(TRAINING_DIR, .dir), (["mfcc", "training"], .dir),
  (["summary.json", "mfcc", "training"], .file (.jsonData (.obj [("classes", .arr [])]))),
  (PROJECT_DIR, .dir), (MODELS_DIR, .dir)]⟩

/-- Example state: no `test_web`, and `mfcc`'s `summary.json` has a
`classes` field holding the number 3 (truthy but not sized). -/
def fsC5b : FS := ⟨[(TRAINING_DIR, .dir), (["mfcc", "training"], .dir),
  (["summary.json", "mfcc", "training"], .file (.jsonData (.obj [("classes", .num 3)]))),
  (PROJECT_DIR, .dir), (MODELS_DIR, .dir)]⟩

/-- Example state: no `test_web`; `mfcc`'s metadata has no `classes` field
and `mel`'s has an unsorted `classes` list with a duplicate. -/
def fsC5w : FS := ⟨[(TRAINING_DIR, .dir), (["mfcc", "training"], .dir),
  (["summary.json", "mfcc", "training"], .file (.jsonData (.obj [("name", .str "x")]))),
  (["mel", "training"], .dir),
  (["summary.json", "mel", "training"],
    .file (.jsonData (.obj [("classes", .arr [.str "b", .str "a", .str "b"])]))),
  (PROJECT_DIR, .dir), (MODELS_DIR, .dir)]⟩

/-- Example state: training root present but empty. -/
def fsC6 : FS := ⟨[(TRAINING_DIR, .dir), (PROJECT_DIR, .dir), (MODELS_DIR, .dir)]⟩

/-- Example state: one model file under `mfcc/models` at the source. -/
def fsC8 : FS := ⟨[(TRAINING_DIR, .dir), (["mfcc", "training"], .dir),
  (["models", "mfcc", "training"], .dir),
  (["fold_1.h5", "models", "mfcc", "training"], .file (.rawData "model1")),
  (PROJECT_DIR, .dir), (MODELS_DIR, .dir)]⟩

/-- The state `copy_models` produces from `fsC8`. -/
def fsC8r : FS :=
  match copy_models fsC8 with
  | .ok r => r.1
  | .error _ => ⟨[]⟩

/-- Example environment with an incompatible interpreter version. -/
def envC9a : Env := ⟨2, 7, ⟨[(PROJECT_DIR, .dir)]⟩, []⟩

/-- Example environment whose run raises: the project root itself is
missing, so the first `mkdir` fails. -/
def envC9b : Env := ⟨3, 9, ⟨[]⟩, []⟩

/-- Example environment whose run completes normally. -/
def envC9c : Env := ⟨3, 9, ⟨[(PROJECT_DIR, .dir)]⟩, ["flask"]⟩

/-- The filesystem the normal run from `envC9c` ends with. -/
def fsC9c : FS :=
  match mainBody envC9c with
  | .ok r => r.1
  | .error _ => ⟨[]⟩

/-- Example state: `test_web` exists but has no subdirectories (only a
plain file), while `mfcc` metadata does name classes. -/
def fsC10 : FS := ⟨[(TRAINING_DIR, .dir), (["test_web", "training"], .dir),
  (["readme.txt", "test_web", "training"], .file (.rawData "hi")),
  (["mfcc", "training"], .dir),
  (["summary.json", "mfcc", "training"],
    .file (.jsonData (.obj [("classes", .arr [.str "x"])]))),
  (PROJECT_DIR, .dir), (MODELS_DIR, .dir)]⟩

/-! ### Generic list lemmas -/

theorem find?_filter {α : Type} (l : List α) (pred f : α → Bool)
    (h : ∀ e, f e = true → pred e = true) :
    (l.filter pred).find? f = l.find? f := by
  induction l with
  | nil => rfl
  | cons e l ih =>
    cases hp : pred e with
    | true =>
      cases hf : f e with
      | true => simp [List.filter_cons, hp, List.find?, hf]
      | false => simpa [List.filter_cons, hp, List.find?, hf] using ih
    | false =>
      have hf : f e = false := by
        cases hfe : f e with
        | false => rfl
        | true => exact absurd (h e hfe) (by simp [hp])
      simpa [List.filter_cons, hp, List.find?, hf] using ih

theorem filterMap_filter {α β : Type} (l : List α) (pred : α → Bool) (f : α → Option β)
    (h : ∀ e, (f e).isSome = true → pred e = true) :
    (l.filter pred).filterMap f = l.filterMap f := by
  induction l with
  | nil => rfl
  | cons e l ih =>
    cases hp : pred e with
    | true => simp [List.filter_cons, hp, List.filterMap_cons, ih]
    | false =>
      have hf : f e = none := by
        cases hfe : f e with
        | none => rfl
        | some b => exact absurd (h e (by simp [hfe])) (by simp [hp])
      simp [List.filter_cons, hp, List.filterMap_cons, hf, ih]

theorem filter_filter_of_imp {α : Type} (l : List α) (pred q : α → Bool)
    (h : ∀ e, pred e = true → q e = true) :
    (l.filter q).filter pred = l.filter pred := by
  induction l with
  | nil => rfl
  | cons e l ih =>
    cases hp : pred e with
    | true => simp [List.filter_cons, h e hp, hp, ih]
    | false =>
      cases hq : q e with
      | true => simp [List.filter_cons, hq, hp, ih]
      | false => simp [List.filter_cons, hq, hp, ih]

/-! ### Lemmas about the filesystem model -/

theorem FS.lookup_setNode (fs : FS) (p : Path) (n : Node) (q : Path) :
    (fs.setNode p n).lookup q = if q = p then some n else fs.lookup q := by
  unfold FS.setNode
  split
  · rename_i hpn
    by_cases hq : q = p
    · subst hq; simp [hpn]
    · simp [hq]
  · rename_i hpn
    by_cases hq : q = p
    · subst hq
      simp only [FS.lookup, if_pos rfl]
      rw [List.find?_cons_of_pos _ (by simp)]
      rfl
    · simp only [FS.lookup, if_neg hq]
      rw [List.find?_cons_of_neg _ (by simp [Ne.symm hq])]
      rw [find?_filter]
      intro e hfe
      have he : e.1 = q := by simpa using hfe
      simp [he, hq]

theorem ne_nil_of_inTraining {p : Path} (h : inTraining p = true) : p ≠ [] := by
  intro he; subst he; simp [inTraining] at h

theorem ne_nil_of_inProject {p : Path} (h : inProject p = true) : p ≠ [] := by
  intro he; subst he; simp [inProject] at h

theorem getLast?_cons_of_ne_nil {a : String} {p : Path} (h : p ≠ []) :
    (a :: p).getLast? = p.getLast? := by
  cases p with
  | nil => exact absurd rfl h
  | cons b t => exact List.getLast?_cons_cons

theorem inTraining_cons {a : String} {p : Path} (h : inTraining p = true) :
    inTraining (a :: p) = true := by
  unfold inTraining at *
  rw [getLast?_cons_of_ne_nil (ne_nil_of_inTraining h)]
  exact h

theorem inProject_cons {a : String} {p : Path} (h : inProject p = true) :
    inProject (a :: p) = true := by
  unfold inProject at *
  rw [getLast?_cons_of_ne_nil (ne_nil_of_inProject h)]
  exact h

theorem not_inTraining_of_inProject {p : Path} (h : inProject p = true) :
    inTraining p = false := by
  unfold inProject at h
  unfold inTraining
  have : p.getLast? = some "project" := by simpa using h
  simp [this]

theorem lookup_congr_training {fs1 fs2 : FS} {p : Path}
    (hp : inTraining p = true) (hTr : trainingEntries fs1 = trainingEntries fs2) :
    fs1.lookup p = fs2.lookup p := by
  have key : ∀ fs : FS,
      fs.lookup p = ((trainingEntries fs).find? (fun e => e.1 == p)).map (fun e => e.2) := by
    intro fs
    unfold FS.lookup trainingEntries
    rw [find?_filter]
    intro e hfe
    have he : e.1 = p := by simpa using hfe
    simp [he, hp]
  rw [key fs1, key fs2, hTr]

theorem childNames_congr_training {fs1 fs2 : FS} {p : Path}
    (hp : inTraining p = true) (hTr : trainingEntries fs1 = trainingEntries fs2) :
    fs1.childNames p = fs2.childNames p := by
  have key : ∀ fs : FS,
      fs.childNames p = (trainingEntries fs).filterMap (fun e =>
        match e.1 with
        | [] => none
        | name :: q => if q == p then some name else none) := by
    intro fs
    unfold FS.childNames trainingEntries
    rw [filterMap_filter]
    intro e hfe
    cases he : e.1 with
    | nil => rw [he] at hfe; simp at hfe
    | cons nm rest =>
      rw [he] at hfe
      have hrp : rest = p := by
        by_contra hne
        have hb : (rest == p) = false := by simp [hne]
        simp [hb] at hfe
      subst hrp
      exact inTraining_cons hp
  rw [key fs1, key fs2, hTr]

theorem existsPath_congr_training {fs1 fs2 : FS} {p : Path}
    (hp : inTraining p = true) (hTr : trainingEntries fs1 = trainingEntries fs2) :
    fs1.existsPath p = fs2.existsPath p := by
  unfold FS.existsPath
  rw [lookup_congr_training hp hTr]

theorem isDir_congr_training {fs1 fs2 : FS} {p : Path}
    (hp : inTraining p = true) (hTr : trainingEntries fs1 = trainingEntries fs2) :
    fs1.isDir p = fs2.isDir p := by
  unfold FS.isDir
  rw [lookup_congr_training hp hTr]

theorem globH5_congr_training {fs1 fs2 : FS} {p : Path}
    (hp : inTraining p = true) (hTr : trainingEntries fs1 = trainingEntries fs2) :
    fs1.globH5 p = fs2.globH5 p := by
  unfold FS.globH5
  rw [childNames_congr_training hp hTr]

theorem trainingEntries_setNode {fs : FS} {p : Path} {n : Node}
    (hp : inTraining p = false) :
    trainingEntries (fs.setNode p n) = trainingEntries fs := by
  unfold FS.setNode
  split
  · rfl
  · unfold trainingEntries
    rw [List.filter_cons]
    simp only [hp, if_neg]
    rw [filter_filter_of_imp]
    · simp [hp]
    · intro e he
      by_cases hep : e.1 = p
      · rw [hep] at he; exact absurd he (by simp [hp])
      · simp [hep]

theorem isDir_setNode_ne {fs : FS} {p : Path} {n : Node} {q : Path} (h : q ≠ p) :
    (fs.setNode p n).isDir q = fs.isDir q := by
  unfold FS.isDir
  rw [FS.lookup_setNode, if_neg h]

theorem allDirs_setNode_of_longer {fs : FS} {n : Node} :
    ∀ {t p : Path}, t.length < p.length → (fs.setNode p n).allDirs t = fs.allDirs t := by
  intro t
  induction t with
  | nil => intro p _; rfl
  | cons a t ih =>
    intro p hlen
    have hne : (a :: t) ≠ p := by
      intro he
      rw [← he] at hlen
      omega
    unfold FS.allDirs
    rw [isDir_setNode_ne hne, ih (by simp at hlen; omega)]

theorem mkdirParents_of_allDirs {fs : FS} :
    ∀ {p : Path}, fs.allDirs p = true → fs.mkdirParents p = .ok fs := by
  intro p
  induction p with
  | nil => intro _; rfl
  | cons a t ih =>
    intro h
    unfold FS.allDirs at h
    rw [Bool.and_eq_true] at h
    obtain ⟨h1, h2⟩ := h
    unfold FS.mkdirParents
    rw [ih h2]
    dsimp only
    unfold FS.isDir at h1
    split at h1
    · rename_i hl
      rw [hl]
    · exact absurd h1 (by simp)

theorem mkdirParents_allDirs {fs : FS} :
    ∀ {p : Path} {fs' : FS}, fs.mkdirParents p = .ok fs' → fs'.allDirs p = true := by
  intro p
  induction p with
  | nil =>
    intro fs' h
    rfl
  | cons a t ih =>
    intro fs' h
    unfold FS.mkdirParents at h
    cases hrec : fs.mkdirParents t with
    | error e => rw [hrec] at h; exact absurd h (by simp)
    | ok fs1 =>
      rw [hrec] at h
      dsimp only at h
      have h1 : fs1.allDirs t = true := ih hrec
      cases hl : fs1.lookup (a :: t) with
      | some n =>
        cases n with
        | dir =>
          rw [hl] at h
          have : fs1 = fs' := by simpa using h
          subst this
          unfold FS.allDirs
          rw [Bool.and_eq_true]
          constructor
          · unfold FS.isDir; rw [hl]
          · exact h1
        | file c =>
          rw [hl] at h; exact absurd h (by simp)
      | none =>
        rw [hl] at h
        have : fs1.setNode (a :: t) .dir = fs' := by simpa using h
        subst this
        unfold FS.allDirs
        rw [Bool.and_eq_true]
        constructor
        · unfold FS.isDir; rw [FS.lookup_setNode, if_pos rfl]
        · rw [allDirs_setNode_of_longer (by simp)]
          exact h1

theorem mkdirParents_lookup {fs : FS} :
    ∀ {p : Path} {fs' : FS}, fs.mkdirParents p = .ok fs' →
    ∀ q, fs'.lookup q = fs.lookup q ∨
      (fs.lookup q = none ∧ fs'.lookup q = some .dir ∧ q ≠ [] ∧ sfx q p = true) := by
  intro p
  induction p with
  | nil =>
    intro fs' h q
    left
    unfold FS.mkdirParents at h
    have : fs = fs' := by simpa using h
    rw [this]
  | cons a t ih =>
    intro fs' h q
    unfold FS.mkdirParents at h
    cases hrec : fs.mkdirParents t with
    | error e => rw [hrec] at h; exact absurd h (by simp)
    | ok fs1 =>
      rw [hrec] at h
      dsimp only at h
      have sfxlift : sfx q t = true → sfx q (a :: t) = true := by
        intro hs; unfold sfx; rw [hs]; simp
      cases hl : fs1.lookup (a :: t) with
      | some n =>
        cases n with
        | dir =>
          rw [hl] at h
          have heq : fs1 = fs' := by simpa using h
          subst heq
          rcases ih hrec q with h' | ⟨h1, h2, h3, h4⟩
          · left; exact h'
          · right; exact ⟨h1, h2, h3, sfxlift h4⟩
        | file c => rw [hl] at h; exact absurd h (by simp)
      | none =>
        rw [hl] at h
        have heq : fs1.setNode (a :: t) .dir = fs' := by simpa using h
        subst heq
        by_cases hq : q = a :: t
        · subst hq
          right
          refine ⟨?_, ?_, by simp, ?_⟩
          · rcases ih hrec (a :: t) with h' | ⟨h1, h2, _, _⟩
            · rw [← h']; exact hl
            · rw [hl] at h2; exact absurd h2 (by simp)
          · rw [FS.lookup_setNode, if_pos rfl]
          · unfold sfx; simp
        · rw [FS.lookup_setNode, if_neg hq]
          rcases ih hrec q with h' | ⟨h1, h2, h3, h4⟩
          · left; exact h'
          · right; exact ⟨h1, h2, h3, sfxlift h4⟩

theorem mkdirParents_trainingEntries {fs : FS} :
    ∀ {p : Path} {fs' : FS}, inProject p = true → fs.mkdirParents p = .ok fs' →
    trainingEntries fs' = trainingEntries fs := by
  intro p
  induction p with
  | nil =>
    intro fs' _ h
    unfold FS.mkdirParents at h
    have : fs = fs' := by simpa using h
    rw [this]
  | cons a t ih =>
    intro fs' hp h
    unfold FS.mkdirParents at h
    cases hrec : fs.mkdirParents t with
    | error e => rw [hrec] at h; exact absurd h (by simp)
    | ok fs1 =>
      rw [hrec] at h
      dsimp only at h
      have htr1 : trainingEntries fs1 = trainingEntries fs := by
        cases t with
        | nil =>
          unfold FS.mkdirParents at hrec
          have : fs = fs1 := by simpa using hrec
          rw [this]
        | cons b u =>
          have hpt : inProject (b :: u) = true := by
            unfold inProject at hp ⊢
            rw [← getLast?_cons_of_ne_nil (p := b :: u) (a := a) (by simp)]
            exact hp
          exact ih hpt hrec
      cases hl : fs1.lookup (a :: t) with
      | some n =>
        cases n with
        | dir =>
          rw [hl] at h
          have heq : fs1 = fs' := by simpa using h
          subst heq
          exact htr1
        | file c => rw [hl] at h; exact absurd h (by simp)
      | none =>
        rw [hl] at h
        have heq : fs1.setNode (a :: t) .dir = fs' := by simpa using h
        subst heq
        rw [trainingEntries_setNode (not_inTraining_of_inProject hp)]
        exact htr1

theorem copy2_eq_ok {fs fs' : FS} {src : Path} {name : String} {parent : Path}
    (h : fs.copy2 src (name :: parent) = .ok fs') :
    ∃ c, fs.lookup src = some (.file c) ∧ fs.isDir parent = true ∧
      fs.lookup (name :: parent) ≠ some .dir ∧
      fs' = fs.setNode (name :: parent) (.file c) := by
  unfold FS.copy2 at h
  cases hl : fs.lookup src with
  | none => rw [hl] at h; exact absurd h (by simp)
  | some n =>
    cases n with
    | dir => rw [hl] at h; exact absurd h (by simp)
    | file c =>
      rw [hl] at h
      dsimp only at h
      by_cases hd : fs.isDir parent = true
      · rw [if_pos hd] at h
        cases hdst : fs.lookup (name :: parent) with
        | some m =>
          cases m with
          | dir => rw [hdst] at h; exact absurd h (by simp)
          | file c2 =>
            rw [hdst] at h
            exact ⟨c, rfl, hd, by simp [hdst], by simpa using h.symm⟩
        | none =>
          rw [hdst] at h
          exact ⟨c, rfl, hd, by simp [hdst], by simpa using h.symm⟩
      · rw [if_neg hd] at h
        exact absurd h (by simp)

theorem copy2_ok_of {fs : FS} {src : Path} {name : String} {parent : Path} {c : FileContent}
    (h1 : fs.lookup src = some (.file c)) (h2 : fs.isDir parent = true)
    (h3 : fs.lookup (name :: parent) ≠ some .dir) :
    fs.copy2 src (name :: parent) = .ok (fs.setNode (name :: parent) (.file c)) := by
  unfold FS.copy2
  rw [h1]
  dsimp only
  rw [if_pos h2]
  cases hdst : fs.lookup (name :: parent) with
  | none => rfl
  | some m =>
    cases m with
    | dir => exact absurd hdst h3
    | file c2 => rfl

theorem writeFile_ok {fs : FS} {name : String} {parent : Path} {c : FileContent}
    (h2 : fs.isDir parent = true)
    (h3 : fs.lookup (name :: parent) ≠ some .dir) :
    fs.writeFile (name :: parent) c = .ok (fs.setNode (name :: parent) (.file c)) := by
  unfold FS.writeFile
  dsimp only
  rw [if_pos h2]
  cases hdst : fs.lookup (name :: parent) with
  | none => rfl
  | some m =>
    cases m with
    | dir => exact absurd hdst h3
    | file c2 => rfl

/-! ### Lemmas about the class-label resolver -/

theorem insertStr_length (s : String) : ∀ l : List String, (insertStr s l).length = l.length + 1 := by
  intro l
  induction l with
  | nil => rfl
  | cons t rest ih =>
    unfold insertStr
    split
    · simp
    · simp [ih]

theorem sortStrings_length (l : List String) : (sortStrings l).length = l.length := by
  induction l with
  | nil => rfl
  | cons a t ih =>
    show (insertStr a (sortStrings t)).length = t.length + 1
    rw [insertStr_length, ih]

theorem extract_tier1 {fs : FS} (h1 : fs.lookup ("test_web" :: TRAINING_DIR) = some .dir) :
    extract_classes_from_training fs = .ok (.arr ((sortStrings
      ((fs.childNames ("test_web" :: TRAINING_DIR)).filter
        (fun n => fs.isDir (n :: "test_web" :: TRAINING_DIR)))).map .str)) := by
  unfold extract_classes_from_training
  have he : fs.existsPath ("test_web" :: TRAINING_DIR) = true := by
    unfold FS.existsPath; rw [h1]; rfl
  have hd : fs.isDir ("test_web" :: TRAINING_DIR) = true := by
    unfold FS.isDir; rw [h1]
  rw [if_pos he, if_pos hd]

theorem extract_tier2 {fs : FS} (h : fs.existsPath ("test_web" :: TRAINING_DIR) = false) :
    extract_classes_from_training fs = (match findClassesMeta fs FEATURE_TYPES with
      | .error e => .error e
      | .ok classes =>
        if classes.truthy then
          match pyLen classes with
          | .error e => .error e
          | .ok _ => .ok classes
        else .ok classes) := by
  unfold extract_classes_from_training
  rw [if_neg (by simp [h])]

theorem findClassesMeta_skip {fs : FS} {f : String} {rest : List String}
    (h : tier2Step fs f = .ok none) :
    findClassesMeta fs (f :: rest) = findClassesMeta fs rest := by
  have hstep : findClassesMeta fs (f :: rest) = (match tier2Step fs f with
    | .error e => .error e
    | .ok (some v) => .ok v
    | .ok none => findClassesMeta fs rest) := rfl
  rw [hstep, h]

theorem findClassesMeta_hit {fs : FS} {f : String} {rest : List String} {v : Json}
    (h : tier2Step fs f = .ok (some v)) :
    findClassesMeta fs (f :: rest) = .ok v := by
  have hstep : findClassesMeta fs (f :: rest) = (match tier2Step fs f with
    | .error e => .error e
    | .ok (some w) => .ok w
    | .ok none => findClassesMeta fs rest) := rfl
  rw [hstep, h]

theorem create_classes_file_eq_true {fs : FS} {v : Json} {n : Nat} {w : Json}
    (hex : extract_classes_from_training fs = .ok v)
    (htr : v.truthy = true)
    (hlen : pyLen v = .ok n)
    (hsl : pySliceFive v = .ok w)
    (hd : fs.isDir MODELS_DIR = true)
    (hnd : fs.lookup classesFilePath ≠ some .dir) :
    create_classes_file fs = .ok
      ⟨fs.setNode classesFilePath (.file (.jsonData v)), v, false, true⟩ := by
  unfold create_classes_file
  rw [hex]
  dsimp only
  rw [htr, if_pos rfl]
  dsimp only
  have hw := @writeFile_ok fs "classes.json" MODELS_DIR (.jsonData v)
    hd (by simpa [classesFilePath] using hnd)
  rw [show ("classes.json" :: MODELS_DIR) = classesFilePath from rfl] at hw
  rw [hw]
  dsimp only
  rw [hlen]
  dsimp only
  rw [hsl]

theorem create_classes_file_eq_false {fs : FS} {v : Json}
    (hex : extract_classes_from_training fs = .ok v)
    (htr : v.truthy = false)
    (hd : fs.isDir MODELS_DIR = true)
    (hnd : fs.lookup classesFilePath ≠ some .dir) :
    create_classes_file fs = .ok
      ⟨fs.setNode classesFilePath (.file (.jsonData placeholderClasses)),
       placeholderClasses, true, true⟩ := by
  unfold create_classes_file
  rw [hex]
  dsimp only
  rw [htr, if_neg (by simp)]
  dsimp only
  have hw := @writeFile_ok fs "classes.json" MODELS_DIR (.jsonData placeholderClasses)
    hd (by simpa [classesFilePath] using hnd)
  rw [show ("classes.json" :: MODELS_DIR) = classesFilePath from rfl] at hw
  rw [hw]
  dsimp only
  rw [show pyLen placeholderClasses = Except.ok 3 from rfl]
  dsimp only
  rw [show pySliceFive placeholderClasses = Except.ok placeholderClasses from rfl]

/-! ### Claim theorems: class-label resolver -/

/-- C4: Label Resolver tier-1 precedence — whenever `SourceRoot/test_web`
exists as a directory with a non-empty set of immediate subdirectories,
the written label file is the lexicographically sorted list of those
subdirectory names, regardless of the presence or content of any
category's `summary.json` (the metadata tier is never consulted); the
filesystem `fs` is arbitrary elsewhere, so any metadata is covered. -/
theorem claim_C4 (fs : FS)
    (h1 : fs.lookup ("test_web" :: TRAINING_DIR) = some .dir)
    (h2 : (fs.childNames ("test_web" :: TRAINING_DIR)).filter
        (fun n => fs.isDir (n :: "test_web" :: TRAINING_DIR)) ≠ [])
    (h3 : fs.isDir MODELS_DIR = true)
    (h4 : fs.lookup classesFilePath ≠ some .dir) :
    create_classes_file fs = .ok
      ⟨fs.setNode classesFilePath (.file (.jsonData (.arr ((sortStrings
          ((fs.childNames ("test_web" :: TRAINING_DIR)).filter
            (fun n => fs.isDir (n :: "test_web" :: TRAINING_DIR)))).map .str)))),
       .arr ((sortStrings ((fs.childNames ("test_web" :: TRAINING_DIR)).filter
            (fun n => fs.isDir (n :: "test_web" :: TRAINING_DIR)))).map .str),
       false, true⟩ := by
  have hex := extract_tier1 h1
  have htr : (Json.arr ((sortStrings ((fs.childNames ("test_web" :: TRAINING_DIR)).filter
      (fun n => fs.isDir (n :: "test_web" :: TRAINING_DIR)))).map .str)).truthy = true := by
    unfold Json.truthy
    have hlen : (sortStrings ((fs.childNames ("test_web" :: TRAINING_DIR)).filter
        (fun n => fs.isDir (n :: "test_web" :: TRAINING_DIR)))).length =
        ((fs.childNames ("test_web" :: TRAINING_DIR)).filter
          (fun n => fs.isDir (n :: "test_web" :: TRAINING_DIR))).length :=
      sortStrings_length _
    cases hs : sortStrings ((fs.childNames ("test_web" :: TRAINING_DIR)).filter
        (fun n => fs.isDir (n :: "test_web" :: TRAINING_DIR))) with
    | nil =>
      rw [hs] at hlen
      exact absurd (List.length_eq_zero.mp hlen.symm) h2
    | cons a t => simp
  exact create_classes_file_eq_true hex htr rfl rfl h3 h4

/-- C10 (implicit): if `SourceRoot/test_web` exists as a directory with no
immediate subdirectories, the resolver returns the empty list without
consulting any category's `summary.json` (the metadata in `fs` is
arbitrary), and the written label file is the hardcoded placeholder. -/
theorem claim_C10 (fs : FS)
    (h1 : fs.lookup ("test_web" :: TRAINING_DIR) = some .dir)
    (h2 : (fs.childNames ("test_web" :: TRAINING_DIR)).filter
        (fun n => fs.isDir (n :: "test_web" :: TRAINING_DIR)) = [])
    (h3 : fs.isDir MODELS_DIR = true)
    (h4 : fs.lookup classesFilePath ≠ some .dir) :
    extract_classes_from_training fs = .ok (.arr []) ∧
    create_classes_file fs = .ok
      ⟨fs.setNode classesFilePath (.file (.jsonData placeholderClasses)),
       placeholderClasses, true, true⟩ := by
  have hex := extract_tier1 h1
  rw [h2] at hex
  have hex' : extract_classes_from_training fs = .ok (.arr []) := by simpa using hex
  exact ⟨hex', create_classes_file_eq_false hex' rfl h3 h4⟩

/-- C6: Label Resolver tier-3 — when the extraction yields a falsy value
(neither the `test_web` listing nor the metadata produced a non-empty
list), the written label file is exactly the three-element placeholder
and the manual-edit warning is emitted. -/
theorem claim_C6 (fs : FS) (v : Json)
    (hex : extract_classes_from_training fs = .ok v)
    (hf : v.truthy = false)
    (h3 : fs.isDir MODELS_DIR = true)
    (h4 : fs.lookup classesFilePath ≠ some .dir) :
    create_classes_file fs = .ok
      ⟨fs.setNode classesFilePath (.file (.jsonData placeholderClasses)),
       placeholderClasses, true, true⟩ :=
  create_classes_file_eq_false hex hf h3 h4

/-- C5 (amended): tier-2 — with no `test_web`, if the categories before
index `i` yield nothing and category `i`'s `summary.json` has a `classes`
field whose value `v` is truthy (non-empty) and is a JSON array or string
(a sized, sliceable value, so that the program's `len(classes)` and
`classes[:5]` prints do not raise), the written label file is exactly
`v`, verbatim — not sorted, not deduplicated, not merged with any later
category (the rest of `fs` is arbitrary) — and the loop stops at `i`. -/
theorem claim_C5 (fs : FS) (i : Nat) (v : Json)
    (hnw : fs.existsPath ("test_web" :: TRAINING_DIR) = false)
    (hi : i < FEATURE_TYPES.length)
    (hskip : ∀ j, j < i → tier2Step fs (FEATURE_TYPES.getD j "") = .ok none)
    (hhit : tier2Step fs (FEATURE_TYPES.getD i "") = .ok (some v))
    (htr : v.truthy = true)
    (hshape : (∃ xs, v = Json.arr xs) ∨ (∃ t, v = Json.str t))
    (h3 : fs.isDir MODELS_DIR = true)
    (h4 : fs.lookup classesFilePath ≠ some .dir) :
    create_classes_file fs = .ok
      ⟨fs.setNode classesFilePath (.file (.jsonData v)), v, false, true⟩ := by
  have hmeta : findClassesMeta fs FEATURE_TYPES = .ok v := by
    have hi3 : i < 3 := by simpa [FEATURE_TYPES] using hi
    show findClassesMeta fs ["mfcc", "mel", "concat"] = .ok v
    interval_cases i
    · exact findClassesMeta_hit (by simpa [FEATURE_TYPES] using hhit)
    · rw [findClassesMeta_skip (by simpa [FEATURE_TYPES] using hskip 0 (by omega))]
      exact findClassesMeta_hit (by simpa [FEATURE_TYPES] using hhit)
    · rw [findClassesMeta_skip (by simpa [FEATURE_TYPES] using hskip 0 (by omega))]
      rw [findClassesMeta_skip (by simpa [FEATURE_TYPES] using hskip 1 (by omega))]
      exact findClassesMeta_hit (by simpa [FEATURE_TYPES] using hhit)
  obtain ⟨n, hlen⟩ : ∃ n, pyLen v = .ok n := by
    rcases hshape with ⟨xs, rfl⟩ | ⟨t, rfl⟩
    · exact ⟨xs.length, rfl⟩
    · exact ⟨t.length, rfl⟩
  obtain ⟨w, hsl⟩ : ∃ w, pySliceFive v = .ok w := by
    rcases hshape with ⟨xs, rfl⟩ | ⟨t, rfl⟩
    · exact ⟨.arr (xs.take 5), rfl⟩
    · exact ⟨.str (t.take 5), rfl⟩
  have hex : extract_classes_from_training fs = .ok v := by
    rw [extract_tier2 hnw, hmeta]
    dsimp only
    rw [htr, if_pos rfl, hlen]
  exact create_classes_file_eq_true hex htr hlen hsl h3 h4

/-- C2 (amended): the Class Label Resolver returns `True` whenever it
returns at all — the only caller-observable failures are raised
exceptions, never a `False` return. -/
theorem claim_C2 (fs : FS) (r : ClassesOutcome)
    (h : create_classes_file fs = .ok r) : r.result = true := by
  unfold create_classes_file at h
  cases hex : extract_classes_from_training fs with
  | error e => rw [hex] at h; exact absurd h (by simp)
  | ok v =>
    rw [hex] at h
    dsimp only at h
    cases htr : v.truthy with
    | true =>
      rw [htr, if_pos rfl] at h
      dsimp only at h
      cases hw : fs.writeFile classesFilePath (.jsonData v) with
      | error e => rw [hw] at h; exact absurd h (by simp)
      | ok fs1 =>
        rw [hw] at h
        dsimp only at h
        cases hl : pyLen v with
        | error e => rw [hl] at h; exact absurd h (by simp)
        | ok n =>
          rw [hl] at h
          dsimp only at h
          cases hsl : pySliceFive v with
          | error e => rw [hsl] at h; exact absurd h (by simp)
          | ok w =>
            rw [hsl] at h
            dsimp only at h
            have := Except.ok.inj h
            rw [← this]
    | false =>
      rw [htr, if_neg (by simp)] at h
      dsimp only at h
      cases hw : fs.writeFile classesFilePath (.jsonData placeholderClasses) with
      | error e => rw [hw] at h; exact absurd h (by simp)
      | ok fs1 =>
        rw [hw] at h
        dsimp only at h
        cases hl : pyLen placeholderClasses with
        | error e => rw [hl] at h; exact absurd h (by simp)
        | ok n =>
          rw [hl] at h
          dsimp only at h
          cases hsl : pySliceFive placeholderClasses with
          | error e => rw [hsl] at h; exact absurd h (by simp)
          | ok w =>
            rw [hsl] at h
            dsimp only at h
            have := Except.ok.inj h
            rw [← this]

/-! ### Claim theorems: verifier and exit codes -/

theorem verifyFeatures_eq (fs : FS) : ∀ (l : List String) (b : Bool),
    verifyFeatures fs b l = (b && l.all (fun f =>
      fs.existsPath ("models" :: f :: MODELS_DIR) &&
      decide (5 ≤ (fs.globH5 ("models" :: f :: MODELS_DIR)).length))) := by
  intro l
  induction l with
  | nil => intro b; simp [verifyFeatures]
  | cons f rest ih =>
    intro b
    unfold verifyFeatures
    cases he : fs.existsPath ("models" :: f :: MODELS_DIR) with
    | false => simp [he, ih, Bool.and_assoc, Bool.and_comm]
    | true =>
      by_cases hn : 5 ≤ (fs.globH5 ("models" :: f :: MODELS_DIR)).length
      · simp [he, hn, ih]
      · simp [he, hn, ih]

/-- C7: the Model Verifier returns true iff every category in the fixed
list has a `models` directory with at least the expected 5 model files;
a missing directory or a shortfall makes the category invalid, and the
per-category checks are all accumulated (no early exit). -/
theorem claim_C7 (fs : FS) :
    verify_models fs = true ↔
      ∀ f ∈ FEATURE_TYPES,
        fs.existsPath ("models" :: f :: MODELS_DIR) = true ∧
        5 ≤ (fs.globH5 ("models" :: f :: MODELS_DIR)).length := by
  unfold verify_models
  rw [verifyFeatures_eq]
  simp [List.all_eq_true]

/-- C9: exit codes — interruption exits 0; a failed version check makes
`main` raise `SystemExit(1)` before touching the filesystem and the
process exits 1; an unhandled exception exits 1; normal completion exits
0. -/
theorem claim_C9 (env : Env) :
    runScript env true = 0 ∧
    (check_python_version env.pyMajor env.pyMinor = false →
      mainBody env = .ok (env.fs, some 1) ∧ runScript env false = 1) ∧
    (∀ e, mainBody env = .error e → runScript env false = 1) ∧
    (∀ fs, mainBody env = .ok (fs, none) → runScript env false = 0) := by
  refine ⟨by simp [runScript], ?_, ?_, ?_⟩
  · intro hc
    have hm : mainBody env = .ok (env.fs, some 1) := by
      unfold mainBody
      rw [if_neg (by simp [hc])]
    exact ⟨hm, by simp [runScript, hm]⟩
  · intro e he
    simp [runScript, he]
  · intro fs hf
    simp [runScript, hf]

/-! ### Claim theorems: provisioner error paths and the missing source root -/

/-- C1 (amended): for a category with `summary.json` and `fold_metrics.csv`
at the source but no `models` subdirectory, the metadata copies succeed
exactly when the destination category directory already exists; both files
are then copied verbatim and the model counter is untouched. -/
theorem claim_C1 (fs : FS) (count : Nat) (f : String) (cs cm : FileContent)
    (h0 : fs.existsPath (f :: TRAINING_DIR) = true)
    (h1 : fs.existsPath ("models" :: f :: TRAINING_DIR) = false)
    (h2 : fs.lookup ("summary.json" :: f :: TRAINING_DIR) = some (.file cs))
    (h3 : fs.lookup ("fold_metrics.csv" :: f :: TRAINING_DIR) = some (.file cm))
    (h4 : fs.lookup (f :: MODELS_DIR) = some .dir)
    (h5 : fs.lookup ("summary.json" :: f :: MODELS_DIR) ≠ some .dir)
    (h6 : fs.lookup ("fold_metrics.csv" :: f :: MODELS_DIR) ≠ some .dir) :
    copyFeature fs count f = .ok
      ((fs.setNode ("summary.json" :: f :: MODELS_DIR) (.file cs)).setNode
        ("fold_metrics.csv" :: f :: MODELS_DIR) (.file cm), count) ∧
    ((fs.setNode ("summary.json" :: f :: MODELS_DIR) (.file cs)).setNode
        ("fold_metrics.csv" :: f :: MODELS_DIR) (.file cm)).lookup
      ("summary.json" :: f :: MODELS_DIR) = some (.file cs) ∧
    ((fs.setNode ("summary.json" :: f :: MODELS_DIR) (.file cs)).setNode
        ("fold_metrics.csv" :: f :: MODELS_DIR) (.file cm)).lookup
      ("fold_metrics.csv" :: f :: MODELS_DIR) = some (.file cm) := by
  have hstep : copyFeature fs count f = .ok
      ((fs.setNode ("summary.json" :: f :: MODELS_DIR) (.file cs)).setNode
        ("fold_metrics.csv" :: f :: MODELS_DIR) (.file cm), count) := by
    unfold copyFeature
    rw [if_pos h0]
    have hP : copyModelsPhase fs count f = .ok (fs, count) := by
      unfold copyModelsPhase
      rw [if_neg (by simp [h1])]
    rw [hP]
    dsimp only
    have hse : fs.existsPath ("summary.json" :: f :: TRAINING_DIR) = true := by
      unfold FS.existsPath; rw [h2]; rfl
    have hpd : fs.isDir (f :: MODELS_DIR) = true := by
      unfold FS.isDir; rw [h4]
    have hS : copySummary fs f = .ok
        (fs.setNode ("summary.json" :: f :: MODELS_DIR) (.file cs)) := by
      unfold copySummary
      rw [if_pos hse]
      exact copy2_ok_of h2 hpd h5
    rw [hS]
    dsimp only
    have hne1 : ("fold_metrics.csv" :: f :: TRAINING_DIR) ≠
        ("summary.json" :: f :: MODELS_DIR) := by simp
    have h3' : (fs.setNode ("summary.json" :: f :: MODELS_DIR) (.file cs)).lookup
        ("fold_metrics.csv" :: f :: TRAINING_DIR) = some (.file cm) := by
      rw [FS.lookup_setNode, if_neg hne1]; exact h3
    have hme : (fs.setNode ("summary.json" :: f :: MODELS_DIR) (.file cs)).existsPath
        ("fold_metrics.csv" :: f :: TRAINING_DIR) = true := by
      unfold FS.existsPath; rw [h3']; rfl
    have hpd' : (fs.setNode ("summary.json" :: f :: MODELS_DIR) (.file cs)).isDir
        (f :: MODELS_DIR) = true := by
      unfold FS.isDir
      rw [FS.lookup_setNode, if_neg (by simp [ MODELS_DIR, PROJECT_DIR]), h4]
    have h6' : (fs.setNode ("summary.json" :: f :: MODELS_DIR) (.file cs)).lookup
        ("fold_metrics.csv" :: f :: MODELS_DIR) ≠ some .dir := by
      rw [FS.lookup_setNode, if_neg (by simp)]; exact h6
    have hM : copyMetrics (fs.setNode ("summary.json" :: f :: MODELS_DIR) (.file cs)) f = .ok
        ((fs.setNode ("summary.json" :: f :: MODELS_DIR) (.file cs)).setNode
          ("fold_metrics.csv" :: f :: MODELS_DIR) (.file cm)) := by
      unfold copyMetrics
      rw [if_pos hme]
      exact copy2_ok_of h3' hpd' h6'
    rw [hM]
  refine ⟨hstep, ?_, ?_⟩
  · rw [FS.lookup_setNode, if_neg (by simp), FS.lookup_setNode, if_pos rfl]
  · rw [FS.lookup_setNode, if_pos rfl]

theorem mkdirExistOk_lookup {fs fs' : FS} {p : Path} (h : fs.mkdirExistOk p = .ok fs') :
    ∀ q, q ≠ p → fs'.lookup q = fs.lookup q := by
  intro q hq
  unfold FS.mkdirExistOk at h
  cases hl : fs.lookup p with
  | some n =>
    cases n with
    | dir =>
      rw [hl] at h
      have : fs = fs' := by simpa using h
      rw [this]
    | file c => rw [hl] at h; exact absurd h (by simp)
  | none =>
    rw [hl] at h
    dsimp only at h
    cases p with
    | nil =>
      have : fs = fs' := by simpa using h
      rw [this]
    | cons a parent =>
      dsimp only at h
      by_cases hd : fs.isDir parent = true
      · rw [if_pos hd] at h
        have : fs.setNode (a :: parent) .dir = fs' := by simpa using h
        rw [← this, FS.lookup_setNode, if_neg hq]
      · rw [if_neg hd] at h
        exact absurd h (by simp)

theorem mkdirsExistOk_lookup {fs' : FS} :
    ∀ {ds : List Path} {fs : FS}, mkdirsExistOk fs ds = .ok fs' →
    ∀ q, (∀ d ∈ ds, q ≠ d) → fs'.lookup q = fs.lookup q := by
  intro ds
  induction ds with
  | nil =>
    intro fs h q _
    have : fs = fs' := by simpa [mkdirsExistOk] using h
    rw [this]
  | cons d rest ih =>
    intro fs h q hq
    unfold mkdirsExistOk at h
    cases hm : fs.mkdirExistOk d with
    | error e => rw [hm] at h; exact absurd h (by simp)
    | ok fs1 =>
      rw [hm] at h
      dsimp only at h
      rw [ih h q (fun d' hd' => hq d' (List.mem_cons_of_mem d hd'))]
      exact mkdirExistOk_lookup hm q (hq d (List.mem_cons_self d rest))

/-- C3: when `SourceRoot` is missing, the Provisioner returns false with a
zero count and an unchanged filesystem (so the model store's per-category
contents are untouched), and `main` proceeds to the remaining steps. -/
theorem claim_C3 (env : Env) (fs1 : FS)
    (hmiss : env.fs.existsPath TRAINING_DIR = false)
    (hver : check_python_version env.pyMajor env.pyMinor = true)
    (hstruct : create_project_structure env.fs = .ok fs1) :
    copy_models fs1 = .ok (fs1, 0, false) ∧
    mainBody env = main_rest env fs1 ∧
    (∀ f ∈ FEATURE_TYPES, fs1.lookup (f :: MODELS_DIR) = env.fs.lookup (f :: MODELS_DIR)) := by
  have hframe := mkdirsExistOk_lookup (by simpa [create_project_structure] using hstruct)
  have hTD : fs1.lookup TRAINING_DIR = env.fs.lookup TRAINING_DIR := by
    apply hframe
    intro d hd
    fin_cases hd <;> decide
  have hmiss1 : fs1.existsPath TRAINING_DIR = false := by
    unfold FS.existsPath at hmiss ⊢
    rw [hTD]
    exact hmiss
  have hcopy : copy_models fs1 = .ok (fs1, 0, false) := by
    unfold copy_models
    rw [if_neg (by simp [hmiss1])]
  refine ⟨hcopy, ?_, ?_⟩
  · unfold mainBody
    rw [if_pos hver, hstruct]
    dsimp only
    rw [hcopy]
  · intro f hf
    apply hframe
    intro d hd
    fin_cases hf <;> fin_cases hd <;> decide

/-! ### Counterexamples and witnesses -/

/-- C1 counterexample: in `fsC1` the `mfcc` category exists with a
`summary.json` but no `models` subdirectory, and `copy_models` raises
`FileNotFoundError` (the destination category directory was never
created) instead of copying the metadata and continuing. -/
theorem claim_C1_counterexample :
    fsC1.existsPath ["mfcc", "training"] = true ∧
    fsC1.lookup ["summary.json", "mfcc", "training"] =
      some (.file (.jsonData (.obj [("classes", .arr [.str "a", .str "b"])]))) ∧
    fsC1.existsPath ["models", "mfcc", "training"] = false ∧
    copy_models fsC1 = .error .fileNotFound := by decide

/-- C1 witness: on `fsC1w`, where `models/mfcc` already exists, the
amended claim applies and both metadata files are copied with the counter
untouched. -/
theorem claim_C1_witness :
    copyFeature fsC1w 0 "mfcc" = .ok
      ((fsC1w.setNode ("summary.json" :: "mfcc" :: MODELS_DIR)
          (.file (.jsonData (.obj [("classes", .arr [.str "a", .str "b"])])))).setNode
        ("fold_metrics.csv" :: "mfcc" :: MODELS_DIR) (.file (.rawData "fold,acc")), 0) ∧
    ((fsC1w.setNode ("summary.json" :: "mfcc" :: MODELS_DIR)
          (.file (.jsonData (.obj [("classes", .arr [.str "a", .str "b"])])))).setNode
        ("fold_metrics.csv" :: "mfcc" :: MODELS_DIR) (.file (.rawData "fold,acc"))).lookup
      ("summary.json" :: "mfcc" :: MODELS_DIR) =
      some (.file (.jsonData (.obj [("classes", .arr [.str "a", .str "b"])]))) ∧
    ((fsC1w.setNode ("summary.json" :: "mfcc" :: MODELS_DIR)
          (.file (.jsonData (.obj [("classes", .arr [.str "a", .str "b"])])))).setNode
        ("fold_metrics.csv" :: "mfcc" :: MODELS_DIR) (.file (.rawData "fold,acc"))).lookup
      ("fold_metrics.csv" :: "mfcc" :: MODELS_DIR) = some (.file (.rawData "fold,acc")) :=
  claim_C1 fsC1w 0 "mfcc" (.jsonData (.obj [("classes", .arr [.str "a", .str "b"])]))
    (.rawData "fold,acc") (by decide) (by decide) (by decide) (by decide) (by decide)
    (by decide) (by decide)

/-- C2 counterexample: with `test_web` absent and `mfcc`'s `summary.json`
holding text that is not JSON, `create_classes_file` raises
`json.JSONDecodeError` — the caller observes a failure instead of `True`. -/
theorem claim_C2_counterexample :
    create_classes_file fsC2 = .error .jsonDecodeError := by decide

/-- C2 witness: a state on which `create_classes_file` does return, and
the return value is `True`. -/
theorem claim_C2_witness :
    create_classes_file fsC2w = .ok outC2w ∧ outC2w.result = true :=
  ⟨by decide, claim_C2 fsC2w outC2w (by decide)⟩

/-- C3 witness: a concrete environment with a missing source root — the
Provisioner reports failure without touching anything and `main` goes on. -/
theorem claim_C3_witness :
    envC3.fs.existsPath TRAINING_DIR = false ∧
    check_python_version envC3.pyMajor envC3.pyMinor = true ∧
    create_project_structure envC3.fs = .ok fsC3s ∧
    copy_models fsC3s = .ok (fsC3s, 0, false) ∧
    mainBody envC3 = main_rest envC3 fsC3s ∧
    fsC3s.lookup ("mfcc" :: MODELS_DIR) = envC3.fs.lookup ("mfcc" :: MODELS_DIR) := by
  have h := claim_C3 envC3 fsC3s (by decide) (by decide) (by decide)
  exact ⟨by decide, by decide, by decide, h.1, h.2.1, h.2.2 "mfcc" (by decide)⟩

/-- C4 witness: `test_web` holds subdirectories `b` and `a` (plus a plain
file) while `mfcc` metadata names class `z`; the file written holds the
sorted subdirectory names `["a", "b"]`, not the metadata. -/
theorem claim_C4_witness :
    create_classes_file fsC4 = .ok
      ⟨fsC4.setNode classesFilePath (.file (.jsonData (.arr [.str "a", .str "b"]))),
       .arr [.str "a", .str "b"], false, true⟩ := by
  have h := claim_C4 fsC4 (by decide) (by decide) (by decide) (by decide)
  have he : (Json.arr ((sortStrings ((fsC4.childNames ("test_web" :: TRAINING_DIR)).filter
      (fun n => fsC4.isDir (n :: "test_web" :: TRAINING_DIR)))).map .str)) =
      .arr [.str "a", .str "b"] := by decide
  rw [he] at h
  exact h

/-- C5 counterexample: `mfcc`'s `summary.json` exists, parses, and has a
`classes` field (the empty list), yet the written file is the placeholder,
not that field's value verbatim; and with a truthy but unsized `classes`
field (the number 3), `len(classes)` raises `TypeError` and nothing is
written at all. -/
theorem claim_C5_counterexample :
    fsC5.existsPath ["test_web", "training"] = false ∧
    tier2Step fsC5 "mfcc" = .ok (some (.arr [])) ∧
    create_classes_file fsC5 = .ok
      ⟨fsC5.setNode classesFilePath (.file (.jsonData placeholderClasses)),
       placeholderClasses, true, true⟩ ∧
    placeholderClasses ≠ .arr [] ∧
    tier2Step fsC5b "mfcc" = .ok (some (.num 3)) ∧
    (Json.num 3).truthy = true ∧
    create_classes_file fsC5b = .error .typeError := by decide

/-- C5 witness: `mfcc` has no `classes` field, `mel` has the unsorted
duplicate-bearing list `["b", "a", "b"]`, and exactly that list is
written. -/
theorem claim_C5_witness :
    create_classes_file fsC5w = .ok
      ⟨fsC5w.setNode classesFilePath (.file (.jsonData (.arr [.str "b", .str "a", .str "b"]))),
       .arr [.str "b", .str "a", .str "b"], false, true⟩ :=
  claim_C5 fsC5w 1 (.arr [.str "b", .str "a", .str "b"]) (by decide) (by decide)
    (by intro j hj; interval_cases j; decide) (by decide) (by decide)
    (Or.inl ⟨[.str "b", .str "a", .str "b"], rfl⟩) (by decide) (by decide)

/-- C6 witness: an empty training root yields a falsy extraction and the
placeholder is written with the warning flag set. -/
theorem claim_C6_witness :
    extract_classes_from_training fsC6 = .ok (.arr []) ∧
    create_classes_file fsC6 = .ok
      ⟨fsC6.setNode classesFilePath (.file (.jsonData placeholderClasses)),
       placeholderClasses, true, true⟩ :=
  ⟨by decide, claim_C6 fsC6 (.arr []) (by decide) (by decide) (by decide) (by decide)⟩

set_option maxRecDepth 8192 in
/-- C9 witness: concrete runs — interruption exits 0, a version failure
exits 1, a raised exception exits 1, a normal run exits 0. -/
theorem claim_C9_witness :
    runScript envC9c true = 0 ∧
    runScript envC9a false = 1 ∧
    runScript envC9b false = 1 ∧
    runScript envC9c false = 0 := by
  refine ⟨(claim_C9 envC9c).1, ?_, ?_, ?_⟩
  · exact ((claim_C9 envC9a).2.1 (by decide)).2
  · exact (claim_C9 envC9b).2.2.1 PyErr.fileNotFound (by decide)
  · exact (claim_C9 envC9c).2.2.2 fsC9c (by decide)

/-- C10 witness: `test_web` exists with only a plain file inside while
`mfcc` metadata names class `x`; the metadata is ignored and the
placeholder is written. -/
theorem claim_C10_witness :
    extract_classes_from_training fsC10 = .ok (.arr []) ∧
    create_classes_file fsC10 = .ok
      ⟨fsC10.setNode classesFilePath (.file (.jsonData placeholderClasses)),
       placeholderClasses, true, true⟩ :=
  claim_C10 fsC10 (by decide) (by decide) (by decide) (by decide)

/-! ### Provisioner idempotence: path classification -/

theorem inTraining_sd (f : String) : inTraining (f :: TRAINING_DIR) = true := rfl

theorem inTraining_sm (f : String) : inTraining ("models" :: f :: TRAINING_DIR) = true := rfl

theorem inTraining_td : inTraining TRAINING_DIR = true := rfl

theorem inProject_dm (f : String) : inProject ("models" :: f :: MODELS_DIR) = true := rfl

theorem inProject_dd (f : String) : inProject (f :: MODELS_DIR) = true := rfl

theorem inProject_sdst (f : String) : inProject ("summary.json" :: f :: MODELS_DIR) = true := rfl

theorem inProject_mdst (f : String) : inProject ("fold_metrics.csv" :: f :: MODELS_DIR) = true := rfl

theorem sfx_dm_cases {q : Path} {f : String}
    (h : sfx q ("models" :: f :: MODELS_DIR) = true) :
    q = "models" :: f :: MODELS_DIR ∨ q = f :: MODELS_DIR ∨ q = MODELS_DIR ∨
    q = PROJECT_DIR ∨ q = ([] : Path) := by
  simp only [ MODELS_DIR, PROJECT_DIR, sfx, Bool.or_eq_true, beq_iff_eq] at h
  simp only [ MODELS_DIR, PROJECT_DIR]
  tauto

theorem touchesF_ne_chain {f : String} {q : Path} (h : touchesF f q) :
    q ≠ PROJECT_DIR ∧ q ≠ MODELS_DIR := by
  unfold touchesF touchesModels at h
  rcases h with ((rfl | rfl | ⟨n, rfl⟩) | rfl | rfl) <;>
    exact ⟨by simp [ MODELS_DIR, PROJECT_DIR], by simp [ MODELS_DIR, PROJECT_DIR]⟩

theorem touchesF_disjoint {f f' : String} (hne : f ≠ f') {q : Path}
    (h : touchesF f q) (h' : touchesF f' q) : False := by
  unfold touchesF touchesModels at h h'
  rcases h with ((rfl | rfl | ⟨n, rfl⟩) | rfl | rfl) <;>
    rcases h' with ((he | he | ⟨n', he⟩) | he | he) <;>
    simp_all [ MODELS_DIR, PROJECT_DIR]

theorem touchesModels_ne_meta {f : String} {q : Path} (h : touchesModels f q) :
    q ≠ "summary.json" :: f :: MODELS_DIR ∧ q ≠ "fold_metrics.csv" :: f :: MODELS_DIR := by
  unfold touchesModels at h
  rcases h with rfl | rfl | ⟨n, rfl⟩ <;>
    exact ⟨by simp [ MODELS_DIR, PROJECT_DIR], by simp [ MODELS_DIR, PROJECT_DIR]⟩

/-! ### Provisioner idempotence: the model-file copy loop -/

theorem copyModelFiles_run {sm dm : Path}
    (hsm : inTraining sm = true) (hdm : inProject dm = true) :
    ∀ (names : List String) (g : FS) (c : Nat) (out : FS × Nat),
    copyModelFiles sm dm g c names = .ok out →
    out.2 = c + names.length ∧
    trainingEntries out.1 = trainingEntries g ∧
    (∀ q, (∀ n ∈ names, q ≠ n :: dm) → out.1.lookup q = g.lookup q) ∧
    (∀ n ∈ names, ∃ cont, g.lookup (n :: sm) = some (.file cont) ∧
       out.1.lookup (n :: dm) = some (.file cont)) := by
  have hsmdm : sm ≠ dm := by
    intro he
    rw [he] at hsm
    rw [not_inTraining_of_inProject hdm] at hsm
    exact absurd hsm (by simp)
  intro names
  induction names with
  | nil =>
    intro g c out h
    have hout : (g, c) = out := by simpa [copyModelFiles] using h
    refine ⟨by simp [← hout], by rw [← hout], fun q _ => by rw [← hout], fun n hn => absurd hn (by simp)⟩
  | cons nm rest ih =>
    intro g c out h
    unfold copyModelFiles at h
    cases hc : g.copy2 (nm :: sm) (nm :: dm) with
    | error e => rw [hc] at h; exact absurd h (by simp)
    | ok g1 =>
      rw [hc] at h
      dsimp only at h
      obtain ⟨cont, hsrc, hdirp, hnd, hg1⟩ := copy2_eq_ok hc
      obtain ⟨ih1, ih2, ih3, ih4⟩ := ih g1 (c + 1) out h
      have hsetTr : trainingEntries g1 = trainingEntries g := by
        rw [hg1]
        exact trainingEntries_setNode (not_inTraining_of_inProject (inProject_cons hdm))
      have hsrc_pres : ∀ n : String, g1.lookup (n :: sm) = g.lookup (n :: sm) := by
        intro n
        rw [hg1, FS.lookup_setNode, if_neg (by simp [hsmdm])]
      refine ⟨by rw [ih1, List.length_cons]; omega, by rw [ih2, hsetTr], ?_, ?_⟩
      · intro q hq
        rw [ih3 q (fun n hn => hq n (List.mem_cons_of_mem nm hn))]
        rw [hg1, FS.lookup_setNode, if_neg (hq nm (List.mem_cons_self nm rest))]
      · intro n hn
        rcases List.mem_cons.mp hn with rfl | hmem
        · by_cases hr : n ∈ rest
          · obtain ⟨cont', h1', h2'⟩ := ih4 n hr
            rw [hsrc_pres n, hsrc] at h1'
            have hcc : cont' = cont := by
              have := h1'
              simp at this
              exact this.symm
            rw [hcc] at h2'
            exact ⟨cont, hsrc, h2'⟩
          · refine ⟨cont, hsrc, ?_⟩
            rw [ih3 (n :: dm) ?_]
            · rw [hg1, FS.lookup_setNode, if_pos rfl]
            · intro n' hn' he
              have : n = n' := by simpa using he
              rw [this] at hr
              exact hr hn'
        · obtain ⟨cont', h1', h2'⟩ := ih4 n hmem
          rw [hsrc_pres n] at h1'
          exact ⟨cont', h1', h2'⟩

theorem copyModelFiles_second {sm dm : Path} :
    ∀ (names : List String) (h : FS) (c : Nat),
    h.isDir dm = true →
    (∀ n ∈ names, ∃ cont, h.lookup (n :: sm) = some (.file cont) ∧
       h.lookup (n :: dm) = some (.file cont)) →
    copyModelFiles sm dm h c names = .ok (h, c + names.length) := by
  intro names
  induction names with
  | nil =>
    intro h c _ _
    simp [copyModelFiles]
  | cons nm rest ih =>
    intro h c hdir hall
    obtain ⟨cont, h1, h2⟩ := hall nm (List.mem_cons_self nm rest)
    have hcopy : h.copy2 (nm :: sm) (nm :: dm) = .ok (h.setNode (nm :: dm) (.file cont)) :=
      copy2_ok_of h1 hdir (by rw [h2]; simp)
    have hid : h.setNode (nm :: dm) (.file cont) = h := by
      unfold FS.setNode
      rw [if_pos h2]
    unfold copyModelFiles
    rw [hcopy]
    dsimp only
    rw [hid, ih h (c + 1) hdir (fun n hn => hall n (List.mem_cons_of_mem nm hn))]
    have harith : c + 1 + rest.length = c + (rest.length + 1) := by omega
    rw [harith]
    rfl

theorem lookup_of_isDir {fs : FS} {p : Path} (h : fs.isDir p = true) :
    fs.lookup p = some .dir := by
  unfold FS.isDir at h
  cases hl : fs.lookup p with
  | none => rw [hl] at h; exact absurd h (by simp)
  | some n =>
    cases n with
    | dir => rfl
    | file c => rw [hl] at h; exact absurd h (by simp)

/-! ### Provisioner idempotence: per-phase lemmas -/

theorem sfx_self (p : Path) : sfx p p = true := by
  cases p <;> simp [sfx]

theorem sfx_lift {q t : Path} (a : String) (h : sfx q t = true) : sfx q (a :: t) = true := by
  simp [sfx, h]

theorem allDirs_lookup {fs : FS} :
    ∀ {p : Path}, fs.allDirs p = true → ∀ q, sfx q p = true → q ≠ [] → fs.lookup q = some .dir := by
  intro p
  induction p with
  | nil =>
    intro _ q hs hne
    exact absurd (by simpa [sfx] using hs) hne
  | cons a t ih =>
    intro hall q hs hne
    unfold FS.allDirs at hall
    rw [Bool.and_eq_true] at hall
    obtain ⟨h1, h2⟩ := hall
    rcases (by simpa [sfx] using hs : q = a :: t ∨ sfx q t = true) with rfl | hs'
    · exact lookup_of_isDir h1
    · exact ih h2 q hs' hne

theorem allDirs_of_components {fs : FS} :
    ∀ {p : Path}, (∀ q, sfx q p = true → q ≠ [] → fs.lookup q = some .dir) →
    fs.allDirs p = true := by
  intro p
  induction p with
  | nil => intro _; rfl
  | cons a t ih =>
    intro hcomp
    unfold FS.allDirs
    rw [Bool.and_eq_true]
    constructor
    · unfold FS.isDir
      rw [hcomp (a :: t) (sfx_self _) (by simp)]
    · exact ih (fun q hs hne => hcomp q (sfx_lift a hs) hne)

theorem copySummary_main {f : String} {g2 g3 : FS}
    (hrun : copySummary g2 f = .ok g3) :
    trainingEntries g3 = trainingEntries g2 ∧
    (∀ q, q ≠ "summary.json" :: f :: MODELS_DIR → g3.lookup q = g2.lookup q) ∧
    (∀ h : FS, trainingEntries h = trainingEntries g2 →
      h.lookup (f :: MODELS_DIR) = g3.lookup (f :: MODELS_DIR) →
      h.lookup ("summary.json" :: f :: MODELS_DIR) =
        g3.lookup ("summary.json" :: f :: MODELS_DIR) →
      copySummary h f = .ok h) := by
  unfold copySummary at hrun
  cases hex : g2.existsPath ("summary.json" :: f :: TRAINING_DIR) with
  | false =>
    rw [if_neg (by simp [hex])] at hrun
    obtain rfl : g2 = g3 := by simpa using hrun
    refine ⟨rfl, fun q _ => rfl, ?_⟩
    intro h hTr _ _
    unfold copySummary
    have hexh : h.existsPath ("summary.json" :: f :: TRAINING_DIR) = false := by
      rw [existsPath_congr_training (by rfl) hTr]
      exact hex
    rw [if_neg (by simp [hexh])]
  | true =>
    rw [if_pos hex] at hrun
    obtain ⟨cont, hsrc, hdd, hnd, rfl⟩ := copy2_eq_ok hrun
    have hne_dd : (f :: MODELS_DIR) ≠ ("summary.json" :: f :: MODELS_DIR) := by
      simp [ MODELS_DIR, PROJECT_DIR]
    refine ⟨trainingEntries_setNode (not_inTraining_of_inProject (inProject_sdst f)),
      fun q hq => by rw [FS.lookup_setNode, if_neg hq], ?_⟩
    intro h hTr hdd' hsd'
    unfold copySummary
    have hexh : h.existsPath ("summary.json" :: f :: TRAINING_DIR) = true := by
      rw [existsPath_congr_training (by rfl) hTr]
      exact hex
    rw [if_pos hexh]
    have hsrch : h.lookup ("summary.json" :: f :: TRAINING_DIR) = some (.file cont) := by
      rw [lookup_congr_training (by rfl) hTr]
      exact hsrc
    have hsdh : h.lookup ("summary.json" :: f :: MODELS_DIR) = some (.file cont) := by
      rw [hsd', FS.lookup_setNode, if_pos rfl]
    have hddh : h.isDir (f :: MODELS_DIR) = true := by
      unfold FS.isDir
      rw [hdd', FS.lookup_setNode, if_neg hne_dd, lookup_of_isDir hdd]
    rw [copy2_ok_of hsrch hddh (by rw [hsdh]; simp)]
    have hid : h.setNode ("summary.json" :: f :: MODELS_DIR) (.file cont) = h := by
      unfold FS.setNode
      rw [if_pos hsdh]
    rw [hid]

theorem copyMetrics_main {f : String} {g3 g4 : FS}
    (hrun : copyMetrics g3 f = .ok g4) :
    trainingEntries g4 = trainingEntries g3 ∧
    (∀ q, q ≠ "fold_metrics.csv" :: f :: MODELS_DIR → g4.lookup q = g3.lookup q) ∧
    (∀ h : FS, trainingEntries h = trainingEntries g3 →
      h.lookup (f :: MODELS_DIR) = g4.lookup (f :: MODELS_DIR) →
      h.lookup ("fold_metrics.csv" :: f :: MODELS_DIR) =
        g4.lookup ("fold_metrics.csv" :: f :: MODELS_DIR) →
      copyMetrics h f = .ok h) := by
  unfold copyMetrics at hrun
  cases hex : g3.existsPath ("fold_metrics.csv" :: f :: TRAINING_DIR) with
  | false =>
    rw [if_neg (by simp [hex])] at hrun
    obtain rfl : g3 = g4 := by simpa using hrun
    refine ⟨rfl, fun q _ => rfl, ?_⟩
    intro h hTr _ _
    unfold copyMetrics
    have hexh : h.existsPath ("fold_metrics.csv" :: f :: TRAINING_DIR) = false := by
      rw [existsPath_congr_training (by rfl) hTr]
      exact hex
    rw [if_neg (by simp [hexh])]
  | true =>
    rw [if_pos hex] at hrun
    obtain ⟨cont, hsrc, hdd, hnd, rfl⟩ := copy2_eq_ok hrun
    have hne_dd : (f :: MODELS_DIR) ≠ ("fold_metrics.csv" :: f :: MODELS_DIR) := by
      simp [ MODELS_DIR, PROJECT_DIR]
    refine ⟨trainingEntries_setNode (not_inTraining_of_inProject (inProject_mdst f)),
      fun q hq => by rw [FS.lookup_setNode, if_neg hq], ?_⟩
    intro h hTr hdd' hsd'
    unfold copyMetrics
    have hexh : h.existsPath ("fold_metrics.csv" :: f :: TRAINING_DIR) = true := by
      rw [existsPath_congr_training (by rfl) hTr]
      exact hex
    rw [if_pos hexh]
    have hsrch : h.lookup ("fold_metrics.csv" :: f :: TRAINING_DIR) = some (.file cont) := by
      rw [lookup_congr_training (by rfl) hTr]
      exact hsrc
    have hsdh : h.lookup ("fold_metrics.csv" :: f :: MODELS_DIR) = some (.file cont) := by
      rw [hsd', FS.lookup_setNode, if_pos rfl]
    have hddh : h.isDir (f :: MODELS_DIR) = true := by
      unfold FS.isDir
      rw [hdd', FS.lookup_setNode, if_neg hne_dd, lookup_of_isDir hdd]
    rw [copy2_ok_of hsrch hddh (by rw [hsdh]; simp)]
    have hid : h.setNode ("fold_metrics.csv" :: f :: MODELS_DIR) (.file cont) = h := by
      unfold FS.setNode
      rw [if_pos hsdh]
    rw [hid]

theorem copyModelsPhase_main {f : String} {g : FS} {c : Nat} {g2 : FS} {c2 : Nat}
    (hrun : copyModelsPhase g c f = .ok (g2, c2)) :
    ∃ k, c2 = c + k ∧
    trainingEntries g2 = trainingEntries g ∧
    (∀ q, ¬ touchesModels f q → q ≠ PROJECT_DIR → q ≠ MODELS_DIR → g2.lookup q = g.lookup q) ∧
    (∀ q, (q = PROJECT_DIR ∨ q = MODELS_DIR) →
        g2.lookup q = g.lookup q ∨ (g.lookup q = none ∧ g2.lookup q = some .dir)) ∧
    (∀ (h : FS) (c₀ : Nat),
      trainingEntries h = trainingEntries g →
      (∀ q, touchesModels f q → h.lookup q = g2.lookup q) →
      (g2.lookup PROJECT_DIR = some .dir → h.lookup PROJECT_DIR = some .dir) →
      (g2.lookup MODELS_DIR = some .dir → h.lookup MODELS_DIR = some .dir) →
      copyModelsPhase h c₀ f = .ok (h, c₀ + k)) := by
  unfold copyModelsPhase at hrun
  cases hex : g.existsPath ("models" :: f :: TRAINING_DIR) with
  | false =>
    rw [if_neg (by simp [hex])] at hrun
    obtain ⟨rfl, rfl⟩ : g = g2 ∧ c = c2 := by
      simpa [Prod.ext_iff] using (Except.ok.inj hrun)
    refine ⟨0, by omega, rfl, fun q _ _ _ => rfl, fun q _ => Or.inl rfl, ?_⟩
    intro h c₀ hTr _ _ _
    unfold copyModelsPhase
    have hexh : h.existsPath ("models" :: f :: TRAINING_DIR) = false := by
      rw [existsPath_congr_training (inTraining_sm f) hTr]
      exact hex
    rw [if_neg (by simp [hexh])]
    simp
  | true =>
    rw [if_pos hex] at hrun
    cases hmk : g.mkdirParents ("models" :: f :: MODELS_DIR) with
    | error e => rw [hmk] at hrun; exact absurd hrun (by simp)
    | ok g1 =>
      rw [hmk] at hrun
      dsimp only at hrun
      obtain ⟨r1, r2, r3, r4⟩ := copyModelFiles_run (inTraining_sm f) (inProject_dm f)
        (g1.globH5 ("models" :: f :: TRAINING_DIR)) g1 c (g2, c2) hrun
      have hTr1 : trainingEntries g1 = trainingEntries g :=
        mkdirParents_trainingEntries (inProject_dm f) hmk
      have hmkl := mkdirParents_lookup hmk
      have hAll1 : g1.allDirs ("models" :: f :: MODELS_DIR) = true := mkdirParents_allDirs hmk
      have hndm_ne : ∀ (n : String) (q : Path),
          sfx q ("models" :: f :: MODELS_DIR) = true →
          q ≠ n :: "models" :: f :: MODELS_DIR := by
        intro n q hs
        rcases sfx_dm_cases hs with rfl | rfl | rfl | rfl | rfl <;>
          simp [ MODELS_DIR, PROJECT_DIR]
      have hdirs2 : ∀ q, sfx q ("models" :: f :: MODELS_DIR) = true → q ≠ [] →
          g2.lookup q = some .dir := by
        intro q hs hne
        have : (g2, c2).1.lookup q = g1.lookup q := r3 q (fun n _ => hndm_ne n q hs)
        rw [this]
        exact allDirs_lookup hAll1 q hs hne
      refine ⟨(g1.globH5 ("models" :: f :: TRAINING_DIR)).length, r1, r2.trans hTr1, ?_, ?_, ?_⟩
      · intro q hq hqPD hqMD
        have hq2 : ∀ n ∈ g1.globH5 ("models" :: f :: TRAINING_DIR),
            q ≠ n :: "models" :: f :: MODELS_DIR := by
          intro n _ he
          exact hq (Or.inr (Or.inr ⟨n, he⟩))
        have h21 : (g2, c2).1.lookup q = g1.lookup q := r3 q hq2
        rw [h21]
        rcases hmkl q with h' | ⟨_, _, hne, hs⟩
        · exact h'
        · rcases sfx_dm_cases hs with rfl | rfl | rfl | rfl | rfl
          · exact absurd (Or.inr (Or.inl rfl)) hq
          · exact absurd (Or.inl rfl) hq
          · exact absurd rfl hqMD
          · exact absurd rfl hqPD
          · exact absurd rfl hne
      · intro q hq
        have hq2 : ∀ n ∈ g1.globH5 ("models" :: f :: TRAINING_DIR),
            q ≠ n :: "models" :: f :: MODELS_DIR := by
          intro n _
          rcases hq with rfl | rfl <;> simp [ MODELS_DIR, PROJECT_DIR]
        have h21 : (g2, c2).1.lookup q = g1.lookup q := r3 q hq2
        rw [h21]
        rcases hmkl q with h' | ⟨h1, h2, _, _⟩
        · exact Or.inl h'
        · exact Or.inr ⟨h1, h2⟩
      · intro h c₀ hTr hTouch hPD hMD
        unfold copyModelsPhase
        have hexh : h.existsPath ("models" :: f :: TRAINING_DIR) = true := by
          rw [existsPath_congr_training (inTraining_sm f) hTr]
          exact hex
        rw [if_pos hexh]
        have hallh : h.allDirs ("models" :: f :: MODELS_DIR) = true := by
          apply allDirs_of_components
          intro q hs hne
          rcases sfx_dm_cases hs with rfl | rfl | rfl | rfl | rfl
          · rw [hTouch _ (Or.inr (Or.inl rfl))]
            exact hdirs2 _ hs hne
          · rw [hTouch _ (Or.inl rfl)]
            exact hdirs2 _ hs hne
          · exact hMD (hdirs2 _ hs hne)
          · exact hPD (hdirs2 _ hs hne)
          · exact absurd rfl hne
        rw [mkdirParents_of_allDirs hallh]
        dsimp only
        have hTrh1 : trainingEntries h = trainingEntries g1 := hTr.trans hTr1.symm
        have hnamesh : h.globH5 ("models" :: f :: TRAINING_DIR) =
            g1.globH5 ("models" :: f :: TRAINING_DIR) :=
          globH5_congr_training (inTraining_sm f) hTrh1
        rw [hnamesh]
        apply copyModelFiles_second
        · unfold FS.isDir
          rw [hTouch _ (Or.inr (Or.inl rfl)),
            hdirs2 _ (sfx_self _) (by simp)]
        · intro n hn
          obtain ⟨cont, hs1, hs2⟩ := r4 n hn
          refine ⟨cont, ?_, ?_⟩
          · rw [lookup_congr_training (inTraining_cons (inTraining_sm f)) hTrh1]
            exact hs1
          · rw [hTouch _ (Or.inr (Or.inr ⟨n, rfl⟩))]
            exact hs2

theorem copyFeature_main {f : String} {g : FS} {c : Nat} {g' : FS} {c' : Nat}
    (hrun : copyFeature g c f = .ok (g', c')) :
    ∃ k, c' = c + k ∧
    trainingEntries g' = trainingEntries g ∧
    (∀ q, ¬ touchesF f q → q ≠ PROJECT_DIR → q ≠ MODELS_DIR → g'.lookup q = g.lookup q) ∧
    (∀ q, (q = PROJECT_DIR ∨ q = MODELS_DIR) →
        g'.lookup q = g.lookup q ∨ (g.lookup q = none ∧ g'.lookup q = some .dir)) ∧
    (∀ (h : FS) (c₀ : Nat),
      trainingEntries h = trainingEntries g →
      (∀ q, touchesF f q → h.lookup q = g'.lookup q) →
      (g'.lookup PROJECT_DIR = some .dir → h.lookup PROJECT_DIR = some .dir) →
      (g'.lookup MODELS_DIR = some .dir → h.lookup MODELS_DIR = some .dir) →
      copyFeature h c₀ f = .ok (h, c₀ + k)) := by
  unfold copyFeature at hrun
  cases hex : g.existsPath (f :: TRAINING_DIR) with
  | false =>
    rw [if_neg (by simp [hex])] at hrun
    obtain ⟨rfl, rfl⟩ : g = g' ∧ c = c' := by
      simpa [Prod.ext_iff] using (Except.ok.inj hrun)
    refine ⟨0, by omega, rfl, fun q _ _ _ => rfl, fun q _ => Or.inl rfl, ?_⟩
    intro h c₀ hTr _ _ _
    unfold copyFeature
    have hexh : h.existsPath (f :: TRAINING_DIR) = false := by
      rw [existsPath_congr_training (inTraining_sd f) hTr]
      exact hex
    rw [if_neg (by simp [hexh])]
    simp
  | true =>
    rw [if_pos hex] at hrun
    cases hP : copyModelsPhase g c f with
    | error e => rw [hP] at hrun; exact absurd hrun (by simp)
    | ok pr =>
      obtain ⟨g2, c2⟩ := pr
      rw [hP] at hrun
      dsimp only at hrun
      cases hS : copySummary g2 f with
      | error e => rw [hS] at hrun; exact absurd hrun (by simp)
      | ok g3 =>
        rw [hS] at hrun
        dsimp only at hrun
        cases hM : copyMetrics g3 f with
        | error e => rw [hM] at hrun; exact absurd hrun (by simp)
        | ok g4 =>
          rw [hM] at hrun
          dsimp only at hrun
          obtain ⟨rfl, rfl⟩ : g4 = g' ∧ c2 = c' := by
            simpa [Prod.ext_iff] using (Except.ok.inj hrun)
          obtain ⟨k, hk, hTrP, hFrP, hChP, hSecP⟩ := copyModelsPhase_main hP
          obtain ⟨hTrS, hFrS, hSecS⟩ := copySummary_main hS
          obtain ⟨hTrM, hFrM, hSecM⟩ := copyMetrics_main hM
          have hsdst_mdst : ("summary.json" :: f :: MODELS_DIR) ≠
              ("fold_metrics.csv" :: f :: MODELS_DIR) := by simp
          have hdd_s : (f :: MODELS_DIR) ≠ ("summary.json" :: f :: MODELS_DIR) := by
            simp [ MODELS_DIR, PROJECT_DIR]
          have hdd_m : (f :: MODELS_DIR) ≠ ("fold_metrics.csv" :: f :: MODELS_DIR) := by
            simp [ MODELS_DIR, PROJECT_DIR]
          refine ⟨k, hk, by rw [hTrM, hTrS, hTrP], ?_, ?_, ?_⟩
          · intro q hq hqPD hqMD
            rw [hFrM q (fun he => hq (Or.inr (Or.inr he))),
              hFrS q (fun he => hq (Or.inr (Or.inl he))),
              hFrP q (fun hm => hq (Or.inl hm)) hqPD hqMD]
          · intro q hq
            have hqs : q ≠ ("summary.json" :: f :: MODELS_DIR) := by
              rcases hq with rfl | rfl <;> simp [ MODELS_DIR, PROJECT_DIR]
            have hqm : q ≠ ("fold_metrics.csv" :: f :: MODELS_DIR) := by
              rcases hq with rfl | rfl <;> simp [ MODELS_DIR, PROJECT_DIR]
            rw [hFrM q hqm, hFrS q hqs]
            exact hChP q hq
          · intro h c₀ hTr hTouch hPD hMD
            have hPD_s : PROJECT_DIR ≠ ("summary.json" :: f :: MODELS_DIR) := by
              simp [ MODELS_DIR, PROJECT_DIR]
            have hPD_m : PROJECT_DIR ≠ ("fold_metrics.csv" :: f :: MODELS_DIR) := by
              simp [ MODELS_DIR, PROJECT_DIR]
            have hMD_s : MODELS_DIR ≠ ("summary.json" :: f :: MODELS_DIR) := by
              simp [ MODELS_DIR, PROJECT_DIR]
            have hMD_m : MODELS_DIR ≠ ("fold_metrics.csv" :: f :: MODELS_DIR) := by
              simp [ MODELS_DIR, PROJECT_DIR]
            have hTouchP : ∀ q, touchesModels f q → h.lookup q = g2.lookup q := by
              intro q hm
              obtain ⟨hqs, hqm⟩ := touchesModels_ne_meta hm
              rw [hTouch q (Or.inl hm), hFrM q hqm, hFrS q hqs]
            have hPD42 : g4.lookup PROJECT_DIR = g2.lookup PROJECT_DIR := by
              rw [hFrM _ hPD_m, hFrS _ hPD_s]
            have hMD42 : g4.lookup MODELS_DIR = g2.lookup MODELS_DIR := by
              rw [hFrM _ hMD_m, hFrS _ hMD_s]
            have hrunP := hSecP h c₀ hTr hTouchP
              (fun hd => hPD (by rw [hPD42]; exact hd))
              (fun hd => hMD (by rw [hMD42]; exact hd))
            have hTr2 : trainingEntries h = trainingEntries g2 := hTr.trans hTrP.symm
            have hddAgree : h.lookup (f :: MODELS_DIR) = g3.lookup (f :: MODELS_DIR) := by
              rw [hTouch _ (Or.inl (Or.inl rfl)), hFrM _ hdd_m]
            have hsdAgree : h.lookup ("summary.json" :: f :: MODELS_DIR) =
                g3.lookup ("summary.json" :: f :: MODELS_DIR) := by
              rw [hTouch _ (Or.inr (Or.inl rfl)), hFrM _ hsdst_mdst]
            have hrunS := hSecS h hTr2 hddAgree hsdAgree
            have hTr3 : trainingEntries h = trainingEntries g3 := hTr2.trans hTrS.symm
            have hddAgree4 : h.lookup (f :: MODELS_DIR) = g4.lookup (f :: MODELS_DIR) :=
              hTouch _ (Or.inl (Or.inl rfl))
            have hmdAgree : h.lookup ("fold_metrics.csv" :: f :: MODELS_DIR) =
                g4.lookup ("fold_metrics.csv" :: f :: MODELS_DIR) :=
              hTouch _ (Or.inr (Or.inr rfl))
            have hrunM := hSecM h hTr3 hddAgree4 hmdAgree
            unfold copyFeature
            have hexh : h.existsPath (f :: TRAINING_DIR) = true := by
              rw [existsPath_congr_training (inTraining_sd f) hTr]
              exact hex
            rw [if_pos hexh, hrunP]
            dsimp only
            rw [hrunS]
            dsimp only
            rw [hrunM]

theorem copyFeatures_step (f : String) (rest : List String) (fs : FS) (c : Nat) :
    copyFeatures (f :: rest) fs c = (match copyFeature fs c f with
      | .error e => .error e
      | .ok (fs1, c1) => copyFeatures rest fs1 c1) := rfl

theorem copyFeatures_idem {g g3 : FS} {c3 : Nat}
    (hrun : copyFeatures FEATURE_TYPES g 0 = .ok (g3, c3)) :
    trainingEntries g3 = trainingEntries g ∧
    copyFeatures FEATURE_TYPES g3 0 = .ok (g3, c3) := by
  rw [show FEATURE_TYPES = ("mfcc" :: "mel" :: "concat" :: []) from rfl] at hrun ⊢
  rw [copyFeatures_step] at hrun
  cases ha : copyFeature g 0 "mfcc" with
  | error e => rw [ha] at hrun; exact absurd hrun (by simp)
  | ok p1 =>
    obtain ⟨g1, c1⟩ := p1
    rw [ha] at hrun
    dsimp only at hrun
    rw [copyFeatures_step] at hrun
    cases hb : copyFeature g1 c1 "mel" with
    | error e => rw [hb] at hrun; exact absurd hrun (by simp)
    | ok p2 =>
      obtain ⟨g2, c2v⟩ := p2
      rw [hb] at hrun
      dsimp only at hrun
      rw [copyFeatures_step] at hrun
      cases hc : copyFeature g2 c2v "concat" with
      | error e => rw [hc] at hrun; exact absurd hrun (by simp)
      | ok p3 =>
        obtain ⟨g3v, c3v⟩ := p3
        rw [hc] at hrun
        dsimp only at hrun
        obtain ⟨rfl, rfl⟩ : g3v = g3 ∧ c3v = c3 := by
          simpa [copyFeatures, Prod.ext_iff] using hrun
        obtain ⟨k1, hk1, hTrA, hFrA, hChA, hSecA⟩ := copyFeature_main ha
        obtain ⟨k2, hk2, hTrB, hFrB, hChB, hSecB⟩ := copyFeature_main hb
        obtain ⟨k3, hk3, hTrC, hFrC, hChC, hSecC⟩ := copyFeature_main hc
        have hTr3 : trainingEntries g3v = trainingEntries g := by
          rw [hTrC, hTrB, hTrA]
        refine ⟨hTr3, ?_⟩
        have chainPD : ∀ {ga gb : FS},
            (∀ q, (q = PROJECT_DIR ∨ q = MODELS_DIR) →
              gb.lookup q = ga.lookup q ∨ (ga.lookup q = none ∧ gb.lookup q = some .dir)) →
            ∀ q, (q = PROJECT_DIR ∨ q = MODELS_DIR) →
            ga.lookup q = some .dir → gb.lookup q = some .dir := by
          intro ga gb hch q hq hd
          rcases hch q hq with he | ⟨_, hdir⟩
          · rw [he]; exact hd
          · exact hdir
        have hS1 := hSecA g3v 0 hTr3 ?_ ?_ ?_
        rotate_left
        · intro q hq
          obtain ⟨hqPD, hqMD⟩ := touchesF_ne_chain hq
          rw [hFrC q (fun h' => touchesF_disjoint (by decide) hq h') hqPD hqMD,
            hFrB q (fun h' => touchesF_disjoint (by decide) hq h') hqPD hqMD]
        · intro hd
          exact chainPD hChC PROJECT_DIR (Or.inl rfl)
            (chainPD hChB PROJECT_DIR (Or.inl rfl) hd)
        · intro hd
          exact chainPD hChC MODELS_DIR (Or.inr rfl)
            (chainPD hChB MODELS_DIR (Or.inr rfl) hd)
        have hS2 := hSecB g3v (0 + k1) (hTr3.trans hTrA.symm) ?_ ?_ ?_
        rotate_left
        · intro q hq
          obtain ⟨hqPD, hqMD⟩ := touchesF_ne_chain hq
          rw [hFrC q (fun h' => touchesF_disjoint (by decide) hq h') hqPD hqMD]
        · intro hd
          exact chainPD hChC PROJECT_DIR (Or.inl rfl) hd
        · intro hd
          exact chainPD hChC MODELS_DIR (Or.inr rfl) hd
        have hS3 := hSecC g3v (0 + k1 + k2) hTrC ?_ ?_ ?_
        rotate_left
        · intro q _
          rfl
        · exact fun hd => hd
        · exact fun hd => hd
        rw [copyFeatures_step, hS1]
        dsimp only
        rw [copyFeatures_step, hS2]
        dsimp only
        rw [copyFeatures_step, hS3]
        have harith : 0 + k1 + k2 + k3 = c3v := by omega
        rw [harith]
        rfl

/-- C8: Provisioner idempotence — a successful `copy_models` run, re-run
on its own output state, succeeds, changes nothing (the destination file
set, names and contents, is literally the same filesystem), and reports
the same copied-model count and the same boolean. -/
theorem claim_C8 (fs : FS) (out : FS × Nat × Bool) (h : copy_models fs = .ok out) :
    copy_models out.1 = .ok out := by
  unfold copy_models at h ⊢
  cases hex : fs.existsPath TRAINING_DIR with
  | false =>
    rw [if_neg (by simp [hex])] at h
    obtain rfl : ((fs, 0, false) : FS × Nat × Bool) = out := by simpa using h
    rw [if_neg (by simp [hex])]
  | true =>
    rw [if_pos hex] at h
    cases hcf : copyFeatures FEATURE_TYPES fs 0 with
    | error e => rw [hcf] at h; exact absurd h (by simp)
    | ok pr =>
      obtain ⟨g3, c3⟩ := pr
      rw [hcf] at h
      dsimp only at h
      obtain rfl : ((g3, c3, decide (0 < c3)) : FS × Nat × Bool) = out := by simpa using h
      obtain ⟨hTr3, hidem⟩ := copyFeatures_idem hcf
      have hex3 : g3.existsPath TRAINING_DIR = true := by
        rw [existsPath_congr_training inTraining_td hTr3]
        exact hex
      dsimp only
      rw [if_pos hex3, hidem]

/-- C8 witness: a concrete successful run (one model file copied) whose
repetition returns the identical state, count and boolean. -/
theorem claim_C8_witness :
    copy_models fsC8 = .ok (fsC8r, 1, true) ∧
    copy_models fsC8r = .ok (fsC8r, 1, true) :=
  ⟨by decide, claim_C8 fsC8 (fsC8r, 1, true) (by decide)⟩

end AudioSetup
